import Mathlib

/-!
Verification of the NAPS2-Extension assignment / validation / export pipeline.

This file gives a shallow embedding of the core Python modules
(`src/models/assignment.py`, `src/models/batch.py`, `src/models/schema.py`,
`src/models/enums.py`, `src/utils/validation.py`,
`src/processing/document_processor.py`) and proves properties about it.

Modelling conventions:
* Python `dict` (insertion ordered) is an association list `List (String × α)`
  with `dictGet` / `dictInsert` / `dictRemove` mirroring lookup, `d[k] = v`
  (update-in-place keeps position, fresh key appends) and `d.pop(k, None)`.
* `datetime.now()` is an explicit `DateTime` parameter threaded into every
  operation that reads the clock in the source.
* Fallible code returns `Except PyError α`; a Python `try/except` is a `match`
  on that result.
* Python's `re.match`, `strptime` date parsing and `float` parsing, which are
  opaque library calls, are abstracted into a `PyOracle` record of functions;
  all theorems quantify over the oracle, and witnesses instantiate it.
-/

namespace ScannerExt

/-! ### Character and string helpers (kernel-reducible replacements for
Python string methods) -/

/-- The character `{`, written via its code point. -/
def lbrace : Char := Char.ofNat 123

/-- The character `}`, written via its code point. -/
def rbrace : Char := Char.ofNat 125

/-- Zero-pad a natural number to 2 digits, as Python `%02d`. -/
def pad2 (n : Nat) : String :=
  if n < 10 then "0" ++ toString n else toString n

/-- Zero-pad a natural number to 3 digits, as Python `{sequential:03d}`. -/
def pad3 (n : Nat) : String :=
  if n < 10 then "00" ++ toString n
  else if n < 100 then "0" ++ toString n
  else toString n

/-- Zero-pad a natural number to 4 digits, as `strftime` `%Y`. -/
def pad4 (n : Nat) : String :=
  if n < 10 then "000" ++ toString n
  else if n < 100 then "00" ++ toString n
  else if n < 1000 then "0" ++ toString n
  else toString n

/-- Python `str.strip()`: remove leading and trailing whitespace. -/
def pyStrip (s : String) : String :=
  String.mk (((s.data.dropWhile Char.isWhitespace).reverse.dropWhile
    Char.isWhitespace).reverse)

/-- Auxiliary splitter for `pySplitChar`, carrying the current segment. -/
def splitOnCharAux (c : Char) : List Char → List Char → List (List Char)
  | [], acc => [acc.reverse]
  | x :: xs, acc =>
      if x = c then acc.reverse :: splitOnCharAux c xs []
      else splitOnCharAux c xs (x :: acc)

/-- Python `str.split(c)` for a single-character separator. -/
def pySplitChar (s : String) (c : Char) : List String :=
  (splitOnCharAux c s.data []).map String.mk

/-- Does the first list start with the second one? -/
def startsWithChars : List Char → List Char → Bool
  | _, [] => true
  | [], _ :: _ => false
  | h :: hs, n :: ns => h = n && startsWithChars hs ns

/-- Occurrence test on character lists; `containsChars needle hay`. -/
def containsChars (needle : List Char) : List Char → Bool
  | [] => needle.isEmpty
  | h :: t => startsWithChars (h :: t) needle || containsChars needle t

/-- Python `needle in hay` substring test. -/
def pyIn (needle hay : String) : Bool :=
  containsChars needle.data hay.data

/-- Python `str.upper()` (ASCII is all the source ever feeds it). -/
def strUpper (s : String) : String := String.mk (s.data.map Char.toUpper)

/-- Python `str.lower()` (ASCII is all the source ever feeds it). -/
def strLower (s : String) : String := String.mk (s.data.map Char.toLower)

/-- Python `str.replace(a, b)` for single characters. -/
def replaceChar (a b : Char) (s : String) : String :=
  String.mk (s.data.map fun c => if c = a then b else c)

/-- Python `sep.join(parts)`. -/
def joinWith (sep : String) : List String → String
  | [] => ""
  | [x] => x
  | x :: y :: xs => x ++ sep ++ joinWith sep (y :: xs)

/-- Python prefix slice `s[:n]` for a possibly negative bound. -/
def pySlicePre (s : String) (n : Int) : String :=
  if 0 ≤ n then String.mk (s.data.take n.toNat)
  else String.mk (s.data.take (s.data.length - n.natAbs))

/-! ### Python dict as insertion-ordered association list -/

/-- `d.get(k)`: first (and, for a dict, only) binding of `k`. -/
def dictGet {α : Type} (d : List (String × α)) (k : String) : Option α :=
  match d with
  | [] => none
  | (k', v) :: rest => if k' = k then some v else dictGet rest k

/-- `d[k] = v`: replace in place when the key exists, append otherwise. -/
def dictInsert {α : Type} (d : List (String × α)) (k : String) (v : α) :
    List (String × α) :=
  match d with
  | [] => [(k, v)]
  | (k', v') :: rest =>
      if k' = k then (k', v) :: rest else (k', v') :: dictInsert rest k v

/-- `d.pop(k, None)` / `del d[k]`: drop the first binding of `k`. -/
def dictRemove {α : Type} (d : List (String × α)) (k : String) :
    List (String × α) :=
  match d with
  | [] => []
  | (k', v') :: rest =>
      if k' = k then rest else (k', v') :: dictRemove rest k

/-- The keys of a dict, in order. -/
def dictKeys {α : Type} (d : List (String × α)) : List String :=
  d.map Prod.fst

/-! ### Timestamps

`datetime` values are modelled by their calendar components; `strftime`
formats are modelled for exactly the format strings the source uses. -/

/-- A `datetime.datetime` value. -/
structure DateTime where
  year : Nat
  month : Nat
  day : Nat
  hour : Nat
  minute : Nat
  second : Nat
  deriving DecidableEq, Repr

/-- `strftime('%Y%m%d_%H%M%S')`. -/
def fmtTimestamp (t : DateTime) : String :=
  pad4 t.year ++ pad2 t.month ++ pad2 t.day ++ "_" ++
    pad2 t.hour ++ pad2 t.minute ++ pad2 t.second

/-- `strftime('%Y-%m-%d')`. -/
def fmtDate (t : DateTime) : String :=
  pad4 t.year ++ "-" ++ pad2 t.month ++ "-" ++ pad2 t.day

/-- `strftime('%H-%M-%S')`. -/
def fmtTime (t : DateTime) : String :=
  pad2 t.hour ++ "-" ++ pad2 t.minute ++ "-" ++ pad2 t.second

/-! ### `src/models/enums.py` — `AppConstants` and the enums the claims use -/

/-- `AppConstants.INVALID_PATH_CHARS`. -/
def INVALID_PATH_CHARS : List Char := ['<', '>', ':', '"', '|', '?', '*']

/-- `AppConstants.RESERVED_NAMES`. -/
def RESERVED_NAMES : List String :=
  ["CON", "PRN", "AUX", "NUL",
   "COM1", "COM2", "COM3", "COM4", "COM5", "COM6", "COM7", "COM8", "COM9",
   "LPT1", "LPT2", "LPT3", "LPT4", "LPT5", "LPT6", "LPT7", "LPT8", "LPT9"]

/-- `AppConstants.MAX_FILENAME_LENGTH`. -/
def MAX_FILENAME_LENGTH : Nat := 255

/-- `AppConstants.MAX_PATH_LENGTH`. -/
def MAX_PATH_LENGTH : Nat := 260

/-- `AppConstants.is_reserved_name`. -/
def is_reserved_name (name : String) : Bool :=
  RESERVED_NAMES.contains (strUpper name)

/-- `AppConstants.has_invalid_chars`. -/
def has_invalid_chars (path : String) : Bool :=
  path.data.any (fun c => INVALID_PATH_CHARS.contains c)

/-- `AppConstants.get_safe_filename`: replace invalid characters with `_`,
guard reserved device names with a leading `_`, truncate to the maximum
filename length preserving the extension. -/
def get_safe_filename (filename : String) : String :=
  let safe1 := String.mk (filename.data.map fun c =>
    if INVALID_PATH_CHARS.contains c then '_' else c)
  let base := (pySplitChar safe1 '.').headD ""
  let safe2 := if is_reserved_name base then "_" ++ safe1 else safe1
  if safe2.data.length > MAX_FILENAME_LENGTH then
    if pyIn "." safe2 then
      let parts := pySplitChar safe2 '.'
      let ext := parts.getLastD ""
      let nm := joinWith "." parts.dropLast
      if ext ≠ "" then
        pySlicePre nm ((MAX_FILENAME_LENGTH : Int) - ext.data.length - 1)
          ++ "." ++ ext
      else pySlicePre nm (MAX_FILENAME_LENGTH : Int)
    else String.mk (safe2.data.take MAX_FILENAME_LENGTH)
  else safe2

/-- `FieldType`. -/
inductive FieldType where
  | TEXT | DATE | NUMBER | DROPDOWN | BOOLEAN
  deriving DecidableEq, Repr

/-- `FieldRole`. -/
inductive FieldRole where
  | FOLDER | FILENAME | METADATA
  deriving DecidableEq, Repr

/-- `ConflictResolution`. -/
inductive ConflictResolution where
  | AUTO_RENAME | PROMPT_USER | SKIP_DUPLICATE | OVERWRITE | MERGE
  deriving DecidableEq, Repr

/-- `ProcessingState`. -/
inductive ProcessingState where
  | IDLE | PREPARING | PROCESSING | COMPLETING | COMPLETED | ERROR | CANCELLED
  deriving DecidableEq, Repr

/-! ### Python exceptions -/

/-- The exception kinds the modelled code can raise. -/
inductive PyError where
  | attributeError (msg : String)
  | schemaValidationError (msg : String)
  | pdfProcessingError (msg : String)
  | assignmentConflictError (msg : String)
  | valueError (msg : String)
  | keyError (msg : String)
  | recursionError
  deriving DecidableEq, Repr

/-! ### `src/models/schema.py` — fields and schemas -/

/-- The `validation_rules` dict of an `IndexField`, restricted to the keys the
source ever reads (`min_length`, `max_length`, `pattern`,
`pattern_description`, `min_value`, `max_value`, `integer_only`, `min_date`,
`max_date`). Dates are `(year, month, day)` triples, compared as Python
compares `date` objects (lexicographically); numeric bounds are the Python
numbers passed by `SchemaBuilder`, modelled as integers. -/
structure ValidationRules where
  min_length : Option Nat := none
  max_length : Option Nat := none
  pattern : Option String := none
  pattern_description : Option String := none
  min_value : Option Int := none
  max_value : Option Int := none
  integer_only : Option Bool := none
  min_date : Option (Nat × Nat × Nat) := none
  max_date : Option (Nat × Nat × Nat) := none
  deriving DecidableEq, Repr

/-- Opaque Python library calls used by field validation, abstracted as
parameters: `reMatch pat s` is `re.match(pat, s) is not None`; `parseDate s`
is the date obtained by trying `strptime` on the fixed format list (or `none`
if every format fails); `parseFloatOk s` is whether `float(s)` succeeds; and
`floatCmpLt` / `floatCmpGt` compare `float(s)` against an integer bound as
Python float comparison does. Every theorem quantifies over the oracle. -/
structure PyOracle where
  reMatch : String → String → Bool
  parseDate : String → Option (Nat × Nat × Nat)
  parseFloatOk : String → Bool
  floatCmpLt : String → Int → Bool
  floatCmpGt : String → Int → Bool

/-- `IndexField` (the attributes the modelled code paths read). -/
structure IndexField where
  name : String
  field_type : FieldType
  role : FieldRole
  required : Bool := false
  default_value : Option String := none
  validation_rules : ValidationRules := {}
  display_order : Nat := 0
  dropdown_options : Option (List String) := none
  deriving DecidableEq, Repr

/-- Python `date` comparison on `(year, month, day)` triples. -/
def dateLt (a b : Nat × Nat × Nat) : Bool :=
  if a.1 ≠ b.1 then a.1 < b.1
  else if a.2.1 ≠ b.2.1 then a.2.1 < b.2.1
  else a.2.2 < b.2.2

/-- The folder/filename-role character checks at the end of
`_validate_text`. -/
def IndexField.validate_text_role (f : IndexField) (value : String) :
    Bool × Option String :=
  if f.role = FieldRole.FOLDER ∨ f.role = FieldRole.FILENAME then
    if has_invalid_chars value then
      (false, some "Contains invalid characters for file/folder names")
    else if is_reserved_name value then
      (false, some "Cannot use reserved system names")
    else (true, none)
  else (true, none)

/-- `IndexField._validate_text`. -/
def IndexField.validate_text (o : PyOracle) (f : IndexField) (value : String) :
    Bool × Option String :=
  let min_length := f.validation_rules.min_length.getD 0
  if value.data.length < min_length then
    (false, some ("Text must be at least " ++ toString min_length ++
      " characters"))
  else
    let max_length := f.validation_rules.max_length.getD 1000
    if value.data.length > max_length then
      (false, some ("Text cannot exceed " ++ toString max_length ++
        " characters"))
    else
      match f.validation_rules.pattern with
      | some pat =>
          if o.reMatch pat value then
            f.validate_text_role value
          else
            (false, some ("Text must match " ++
              (f.validation_rules.pattern_description.getD "required format")))
      | none => f.validate_text_role value

/-- The `max_date` check at the end of `_validate_date`. -/
def IndexField.validate_date_max (f : IndexField) (d : Nat × Nat × Nat) :
    Bool × Option String :=
  match f.validation_rules.max_date with
  | some hi =>
      if dateLt hi d then
        (false, some "Date must be before the maximum date")
      else (true, none)
  | none => (true, none)

/-- `IndexField._validate_date`. -/
def IndexField.validate_date (o : PyOracle) (f : IndexField) (value : String) :
    Bool × Option String :=
  match o.parseDate value with
  | none =>
      (false, some "Invalid date format. Use YYYY-MM-DD, MM/DD/YYYY, or similar")
  | some d =>
      match f.validation_rules.min_date with
      | some lo =>
          if dateLt d lo then
            (false, some "Date must be after the minimum date")
          else f.validate_date_max d
      | none => f.validate_date_max d

/-- Python `value.lstrip('-').isdigit()`. -/
def lstripMinusIsDigit (value : String) : Bool :=
  let rest := value.data.dropWhile (fun c => c = '-')
  !rest.isEmpty && rest.all Char.isDigit

/-- The `max_value` check at the end of `_validate_number`. -/
def IndexField.validate_number_max (o : PyOracle) (f : IndexField)
    (value : String) : Bool × Option String :=
  match f.validation_rules.max_value with
  | some hi =>
      if o.floatCmpGt value hi then
        (false, some ("Number cannot exceed " ++ toString hi))
      else (true, none)
  | none => (true, none)

/-- `IndexField._validate_number`. -/
def IndexField.validate_number (o : PyOracle) (f : IndexField)
    (value : String) : Bool × Option String :=
  if !o.parseFloatOk value then
    (false, some "Must be a valid number")
  else if f.validation_rules.integer_only.getD false &&
      !lstripMinusIsDigit value then
    (false, some "Must be a whole number")
  else
    match f.validation_rules.min_value with
    | some lo =>
        if o.floatCmpLt value lo then
          (false, some ("Number must be at least " ++ toString lo))
        else f.validate_number_max o value
    | none => f.validate_number_max o value

/-- `IndexField._validate_dropdown`. -/
def IndexField.validate_dropdown (f : IndexField) (value : String) :
    Bool × Option String :=
  match f.dropdown_options with
  | none => (false, some "No dropdown options defined")
  | some [] => (false, some "No dropdown options defined")
  | some opts =>
      if opts.contains value then (true, none)
      else (false, some ("Must select one of: " ++ joinWith ", " opts))

/-- `IndexField._validate_boolean`. -/
def IndexField.validate_boolean (value : String) : Bool × Option String :=
  let v := strLower value
  let valid_true := ["true", "yes", "1", "on", "checked"]
  let valid_false := ["false", "no", "0", "off", "unchecked", ""]
  if !valid_true.contains v && !valid_false.contains v then
    (false, some "Must be yes/no, true/false, or 1/0")
  else (true, none)

/-- `IndexField.validate_value`. `none` models a Python `None` value (the
field absent from the values dict). -/
def IndexField.validate_value (o : PyOracle) (f : IndexField)
    (value : Option String) : Bool × Option String :=
  match value with
  | none =>
      if f.required then (false, some ("Field " ++ f.name ++ " is required"))
      else (true, none)
  | some s =>
      if pyStrip s = "" then
        if f.required then (false, some ("Field " ++ f.name ++ " is required"))
        else (true, none)
      else
        let str_value := pyStrip s
        match f.field_type with
        | FieldType.TEXT => f.validate_text o str_value
        | FieldType.DATE => f.validate_date o str_value
        | FieldType.NUMBER => f.validate_number o str_value
        | FieldType.DROPDOWN => f.validate_dropdown str_value
        | FieldType.BOOLEAN => IndexField.validate_boolean str_value

/-- `IndexSchema` (the attributes the modelled code paths read). -/
structure IndexSchema where
  name : String
  fields : List IndexField := []
  folder_separator : String := "/"
  filename_template : String := "{timestamp}_{sequential}"
  deriving DecidableEq, Repr

/-- Stable insertion of an element into a list sorted by `display_order`,
keeping earlier-listed fields before later ones with an equal order key
(Python `sorted` is stable). -/
def insertByOrder (x : IndexField) : List IndexField → List IndexField
  | [] => [x]
  | y :: ys =>
      if y.display_order < x.display_order then y :: insertByOrder x ys
      else x :: y :: ys

/-- Python `sorted(fields, key=lambda f: f.display_order)` (stable sort). -/
def sortByDisplayOrder : List IndexField → List IndexField
  | [] => []
  | x :: xs => insertByOrder x (sortByDisplayOrder xs)

/-- `IndexSchema.get_fields_by_role`. -/
def IndexSchema.get_fields_by_role (s : IndexSchema) (role : FieldRole) :
    List IndexField :=
  s.fields.filter (fun f => f.role = role)

/-- `IndexSchema.get_required_fields`. -/
def IndexSchema.get_required_fields (s : IndexSchema) : List IndexField :=
  s.fields.filter (fun f => f.required)

/-- `IndexSchema.validate_assignment_values`. -/
def IndexSchema.validate_assignment_values (o : PyOracle) (s : IndexSchema)
    (values : List (String × String)) : Bool × List String :=
  let errors := s.fields.filterMap (fun f =>
    let r := f.validate_value o (dictGet values f.name)
    if r.1 then none else some (r.2.getD ""))
  (errors.isEmpty, errors)

/-- `IndexSchema.generate_folder_structure`: FOLDER-role fields sorted by
display order, non-empty stripped values sanitized, joined by the schema
separator. -/
def IndexSchema.generate_folder_structure (s : IndexSchema)
    (values : List (String × String)) : String :=
  let folder_fields := sortByDisplayOrder
    (s.get_fields_by_role FieldRole.FOLDER)
  let folder_parts := folder_fields.filterMap (fun f =>
    let value := pyStrip ((dictGet values f.name).getD "")
    if value = "" then none
    else
      let clean_value := get_safe_filename value
      if clean_value = "" then none else some clean_value)
  if folder_parts.isEmpty then "" else joinWith s.folder_separator folder_parts

/-- Read a `{key}` body up to the closing brace. -/
def splitKeyChars : List Char → Option (List Char × List Char)
  | [] => none
  | c :: cs =>
      if c = rbrace then some ([], cs)
      else (fun p => (c :: p.1, p.2)) <$> splitKeyChars cs

/-- Python `template.format(**vars)` on plain `{name}` placeholders, with
`{{`/`}}` escapes; a missing key raises `KeyError`, a stray brace raises
`ValueError`. Conversion/format-spec placeholders (`{x!r}`, `{x:>5}`) are
not used anywhere in the repository (the default template is
`{timestamp}_{sequential}` and all builder templates are plain names) and
are mapped to a `ValueError`. The fuel argument bounds the number of
consumed characters and is always called with `length + 1`. -/
def pyFormatAux (vars : List (String × String)) :
    Nat → List Char → Except PyError (List Char)
  | 0, _ => .error .recursionError
  | _ + 1, [] => .ok []
  | fuel + 1, c :: cs =>
      if c = lbrace then
        match cs with
        | [] => .error (.valueError "single left brace in template")
        | c2 :: cs2 =>
            if c2 = lbrace then do
              let r ← pyFormatAux vars fuel cs2
              .ok (lbrace :: r)
            else
              match splitKeyChars (c2 :: cs2) with
              | none => .error (.valueError "expected closing brace")
              | some (k, rest) =>
                  if k.any (fun ch => ch = ':' || ch = '!') then
                    .error (.valueError "format spec placeholders not used by the repository")
                  else
                    match dictGet vars (String.mk k) with
                    | none => .error (.keyError (String.mk k))
                    | some v => do
                        let r ← pyFormatAux vars fuel rest
                        .ok (v.data ++ r)
      else if c = rbrace then
        match cs with
        | [] => .error (.valueError "single right brace in template")
        | c2 :: cs2 =>
            if c2 = rbrace then do
              let r ← pyFormatAux vars fuel cs2
              .ok (rbrace :: r)
            else .error (.valueError "single right brace in template")
      else do
        let r ← pyFormatAux vars fuel cs
        .ok (c :: r)

/-- `template.format(**vars)`. -/
def pyFormat (template : String) (vars : List (String × String)) :
    Except PyError String :=
  String.mk <$> pyFormatAux vars (template.data.length + 1) template.data

/-- `IndexSchema.generate_filename`. `timestamp` and `sequential` mirror the
optional Python parameters; `now` is the ambient clock read by
`datetime.now()` when they are absent. A `KeyError` from the template falls
back to timestamp-plus-parts naming; any other formatting error propagates
(the source catches only `KeyError`). -/
def IndexSchema.generate_filename (s : IndexSchema)
    (values : List (String × String)) (timestamp : Option DateTime)
    (sequential : Option Nat) (now : DateTime) : Except PyError String :=
  let filename_fields := sortByDisplayOrder
    (s.get_fields_by_role FieldRole.FILENAME)
  let filename_parts := filename_fields.filterMap (fun f =>
    let value := pyStrip ((dictGet values f.name).getD "")
    if value = "" then none
    else
      let clean_value := get_safe_filename value
      if clean_value = "" then none else some clean_value)
  let template_vars0 : List (String × String) :=
    [("timestamp", match timestamp with
        | some t => fmtTimestamp t
        | none => fmtTimestamp now),
     ("sequential", match sequential with
        | some q => pad3 q
        | none => "001"),
     ("date", match timestamp with
        | some t => fmtDate t
        | none => fmtDate now),
     ("time", match timestamp with
        | some t => fmtTime t
        | none => fmtTime now)]
  let template_vars := values.foldl (fun d kv =>
    if kv.2 ≠ "" ∧ pyStrip kv.2 ≠ "" then
      dictInsert d (replaceChar ' ' '_' (strLower kv.1))
        (get_safe_filename (pyStrip kv.2))
    else d) template_vars0
  let step1 : Except PyError String :=
    match pyFormat s.filename_template template_vars with
    | .ok f => .ok f
    | .error (.keyError _) =>
        .ok ((dictGet template_vars "timestamp").getD "" ++
          (if filename_parts.isEmpty then ""
           else "_" ++ joinWith "_" filename_parts))
    | .error e => .error e
  match step1 with
  | .error e => .error e
  | .ok filename =>
      let filename2 :=
        if !filename_parts.isEmpty &&
            !(filename_parts.any (fun part => pyIn part filename)) then
          filename ++ "_" ++ joinWith "_" filename_parts
        else filename
      .ok (get_safe_filename filename2)

/-! ### `src/models/assignment.py` — page references, previews, assignments -/

/-- `PageReference`: an immutable (file id, 1-based page number) pair. The
constructor invariant `page_number ≥ 1` is enforced by `__post_init__`;
concrete references in this file always satisfy it. -/
structure PageReference where
  file_id : String
  page_number : Nat
  deriving DecidableEq, Repr

/-- `PageReference.page_id`. -/
def PageReference.page_id (r : PageReference) : String :=
  r.file_id ++ ":" ++ toString r.page_number

/-- `DocumentPreview` (the attributes the modelled code paths read).
`estimated_file_size` is set by `calculate_estimated_size`. -/
structure DocumentPreview where
  filename : String
  folder_path : String
  page_references : List PageReference
  page_count : Nat
  estimated_file_size : Nat := 0
  deriving DecidableEq, Repr

/-- `DocumentPreview.get_full_path`, as the string `str()` produces. The
folder path is joined to `filename.pdf` with `/`; `pathlib` normalization of
exotic separators inside the folder string is not modelled (the branches the
claims exercise never produce them). -/
def DocumentPreview.get_full_path (p : DocumentPreview) : String :=
  if p.folder_path ≠ "" then p.folder_path ++ "/" ++ p.filename ++ ".pdf"
  else p.filename ++ ".pdf"

/-- `DocumentPreview.validate_paths`. -/
def DocumentPreview.validate_paths (p : DocumentPreview) :
    Bool × List String :=
  let errors :=
    (if has_invalid_chars p.filename then
      ["Filename contains invalid characters"] else []) ++
    (if is_reserved_name p.filename then
      ["Filename uses reserved system name"] else []) ++
    (if p.folder_path ≠ "" then
      ((pySplitChar p.folder_path '/').map (fun part =>
        (if has_invalid_chars part then
          ["Folder name " ++ part ++ " contains invalid characters"] else []) ++
        (if is_reserved_name part then
          ["Folder name " ++ part ++ " uses reserved system name"] else []))).flatten
     else []) ++
    (if p.get_full_path.data.length > MAX_PATH_LENGTH then
      ["Complete path is too long"] else [])
  (errors.isEmpty, errors)

/-- `PageAssignment` (the attributes the modelled code paths read).
Timestamps are the `DateTime` values `datetime.now()` produced when they
were written. -/
structure PageAssignment where
  assignment_id : String
  page_references : List PageReference := []
  index_values : List (String × String) := []
  schema : Option IndexSchema := none
  output_filename : String := ""
  output_folder_path : String := ""
  document_preview : Option DocumentPreview := none
  is_valid : Bool := false
  validation_errors : List String := []
  validation_warnings : List String := []
  created_timestamp : DateTime
  modified_timestamp : DateTime
  deriving DecidableEq, Repr

/-- `PageAssignment.__init__` with a given (fresh) id, schema and clock. -/
def mkPageAssignment (assignment_id : String) (schema : Option IndexSchema)
    (now : DateTime) : PageAssignment :=
  { assignment_id := assignment_id, schema := schema,
    created_timestamp := now, modified_timestamp := now }

/-- `PageAssignment.add_page`: append if absent; on an actual append, bump
`modified_timestamp` and invalidate the preview (`_invalidate_preview` also
clears `is_valid`). -/
def PageAssignment.add_page (a : PageAssignment) (r : PageReference)
    (now : DateTime) : PageAssignment :=
  if a.page_references.contains r then a
  else
    { a with page_references := a.page_references ++ [r],
             modified_timestamp := now,
             document_preview := none, is_valid := false }

/-- `PageAssignment.add_pages`: append every reference not already present;
then, when the ARGUMENT list is non-empty (this is the condition the source
tests), bump `modified_timestamp` and invalidate the preview. -/
def PageAssignment.add_pages (a : PageAssignment) (refs : List PageReference)
    (now : DateTime) : PageAssignment :=
  let new_refs := refs.foldl (fun acc r =>
    if acc.contains r then acc else acc ++ [r]) a.page_references
  if refs.isEmpty then { a with page_references := new_refs }
  else
    { a with page_references := new_refs,
             modified_timestamp := now,
             document_preview := none, is_valid := false }

/-- `PageAssignment.update_index_values`: `dict.update`, bump, invalidate. -/
def PageAssignment.update_index_values (a : PageAssignment)
    (values : List (String × String)) (now : DateTime) : PageAssignment :=
  { a with index_values := values.foldl (fun d kv => dictInsert d kv.1 kv.2)
             a.index_values,
           modified_timestamp := now,
           document_preview := none, is_valid := false }

/-- `PageAssignment.get_file_ids` as a deduplicated list (Python builds a
set; only its size is ever read, so a nodup list is an exact model). -/
def PageAssignment.get_file_ids (a : PageAssignment) : List String :=
  (a.page_references.map PageReference.file_id).dedup

/-- `PageAssignment.generate_document_preview`: requires a schema, generates
filename and folder via the schema using `created_timestamp` and the
hardcoded sequential value `1`, caches the preview and mirrors the output
fields. Errors from filename generation propagate; they occur before any
mutation, so the failing case returns the assignment unchanged. -/
def PageAssignment.generate_document_preview (a : PageAssignment) :
    Except PyError (PageAssignment × DocumentPreview) :=
  match a.schema with
  | none => .error (.schemaValidationError "Cannot generate preview without schema")
  | some schema =>
      match schema.generate_filename a.index_values (some a.created_timestamp)
          (some 1) a.created_timestamp with
      | .error e => .error e
      | .ok filename =>
          let folder_path := schema.generate_folder_structure a.index_values
          let preview : DocumentPreview :=
            { filename := filename, folder_path := folder_path,
              page_references := a.page_references,
              page_count := a.page_references.length,
              estimated_file_size := a.page_references.length * 50000 }
          .ok ({ a with document_preview := some preview,
                        output_filename := filename,
                        output_folder_path := folder_path }, preview)

/-- `PageAssignment.validate_assignment`. Returns the post-state together
with the `(is_valid, errors, warnings)` triple the method returns. The
no-schema branch returns early WITHOUT updating the stored
`is_valid` / `validation_errors` / `validation_warnings` fields, exactly as
the source does. -/
def PageAssignment.validate_assignment (o : PyOracle) (a : PageAssignment) :
    PageAssignment × (Bool × List String × List String) :=
  let errors0 : List String :=
    if a.page_references.isEmpty then ["Assignment has no pages"] else []
  match a.schema with
  | none => (a, (false, errors0 ++ ["Assignment has no schema"], []))
  | some schema =>
      let schema_errors := (schema.validate_assignment_values o
        a.index_values).2
      let errors1 := errors0 ++ schema_errors
      let required_errors := schema.get_required_fields.filterMap (fun f =>
        if pyStrip ((dictGet a.index_values f.name).getD "") = "" then
          some ("Required field " ++ f.name ++ " is missing")
        else none)
      let errors2 := errors1 ++ required_errors
      let (a2, errors3) :=
        match a.generate_document_preview with
        | .ok (a', preview) =>
            let pv := preview.validate_paths
            (a', errors2 ++ (if pv.1 then [] else pv.2))
        | .error _ =>
            (a, errors2 ++ ["Cannot generate document preview"])
      let warnings :=
        (if a.page_references.length > 100 then
          ["Large document may be slow to process"] else []) ++
        (if a.get_file_ids.length > 10 then
          ["Pages from many files may affect performance"] else [])
      let is_valid := errors3.isEmpty
      let a3 := { a2 with is_valid := is_valid,
                          validation_errors := errors3,
                          validation_warnings := warnings }
      (a3, (is_valid, errors3, warnings))

/-- The serialized form consumed by `PageAssignment.from_dict` (the keys the
classmethod reads). -/
structure AssignmentData where
  assignment_id : Option String := none
  page_references : List PageReference := []
  index_values : List (String × String) := []
  output_filename : String := ""
  output_folder_path : String := ""
  is_valid : Bool := false
  deriving DecidableEq, Repr

/-- `PageAssignment.from_dict`: builds an assignment from serialized data;
page references are appended directly, `is_valid` is taken from the dict
without re-validation. `fresh_id` models the `uuid4` fallback and `now` the
constructor clock (timestamp keys absent from the modelled data). -/
def PageAssignment.from_dict (data : AssignmentData)
    (schema : Option IndexSchema) (fresh_id : String) (now : DateTime) :
    PageAssignment :=
  let a := mkPageAssignment (data.assignment_id.getD fresh_id) schema now
  { a with page_references := data.page_references,
           index_values := data.index_values,
           output_filename := data.output_filename,
           output_folder_path := data.output_folder_path,
           is_valid := data.is_valid }

/-! ### `AssignmentManager` -/

/-- `AssignmentManager`: the `assignments` dict (`assignment_id` to
assignment, insertion ordered) and the derived `_page_to_assignment` index
(`page_id` to `assignment_id`). -/
structure AssignmentManager where
  assignments : List (String × PageAssignment) := []
  page_to_assignment : List (String × String) := []
  deriving DecidableEq, Repr

/-- `AssignmentManager.__init__`. -/
def emptyManager : AssignmentManager := {}

/-- `AssignmentManager._update_page_mapping`: point every page of the
assignment at its id. -/
def AssignmentManager.update_page_mapping (m : AssignmentManager)
    (a : PageAssignment) : AssignmentManager :=
  { m with page_to_assignment := (a.page_references.foldl
      (fun d r => dictInsert d r.page_id a.assignment_id)
      m.page_to_assignment) }

/-- `AssignmentManager.add_assignment`: store the assignment and update the
page index. No conflict check is performed here. -/
def AssignmentManager.add_assignment (m : AssignmentManager)
    (a : PageAssignment) : AssignmentManager :=
  ({ m with assignments := dictInsert m.assignments a.assignment_id a
   } : AssignmentManager).update_page_mapping a

/-- `AssignmentManager.remove_assignment`: pop every page of the stored
assignment from the index, then delete it; returns whether it was found. -/
def AssignmentManager.remove_assignment (m : AssignmentManager)
    (assignment_id : String) : AssignmentManager × Bool :=
  match dictGet m.assignments assignment_id with
  | none => (m, false)
  | some a =>
      ({ assignments := dictRemove m.assignments assignment_id,
         page_to_assignment := a.page_references.foldl
           (fun d r => dictRemove d r.page_id) m.page_to_assignment }, true)

/-- `AssignmentManager.check_page_conflicts`: the references whose `page_id`
is a key of the page index. -/
def AssignmentManager.check_page_conflicts (m : AssignmentManager)
    (page_references : List PageReference) : List PageReference :=
  page_references.filter (fun r =>
    (dictGet m.page_to_assignment r.page_id).isSome)

/-- Does the stored entry hold the given page? -/
def holdsPage (pid : String) (e : String × PageAssignment) : Bool :=
  e.2.page_references.any (fun r => r.page_id = pid)

/-- The ids of the currently held assignments whose `page_references`
contain the given page, in storage order. This is the semantic notion the
spec states the index must mirror. -/
def AssignmentManager.holders (m : AssignmentManager) (pid : String) :
    List String :=
  (m.assignments.filter (holdsPage pid)).map Prod.fst

/-- `AssignmentManager.get_filename_conflicts`: walk the assignments in
storage order keeping a path-to-first-id dict; every later previewed
assignment whose full path is already present is reported against the FIRST
assignment with that path. -/
def filenameConflictsLoop :
    List (String × PageAssignment) → List (String × String) →
    List (String × String × String) → List (String × String × String)
  | [], _, acc => acc
  | e :: rest, seen, acc =>
      match e.2.document_preview with
      | none => filenameConflictsLoop rest seen acc
      | some preview =>
          let full_path := preview.get_full_path
          match dictGet seen full_path with
          | some existing_id =>
              filenameConflictsLoop rest seen
                (acc ++ [(existing_id, e.1, full_path)])
          | none =>
              filenameConflictsLoop rest (dictInsert seen full_path e.1) acc

/-- `AssignmentManager.get_filename_conflicts`. -/
def AssignmentManager.get_filename_conflicts (m : AssignmentManager) :
    List (String × String × String) :=
  filenameConflictsLoop m.assignments [] []

/-- An operation on an `AssignmentManager`, for stating invariants over
operation sequences. -/
inductive ManagerOp where
  | add (a : PageAssignment)
  | remove (assignment_id : String)
  deriving Repr

/-- Apply one operation. -/
def applyOp (m : AssignmentManager) : ManagerOp → AssignmentManager
  | .add a => m.add_assignment a
  | .remove assignment_id => (m.remove_assignment assignment_id).1

/-- Run a sequence of operations. -/
def runOps (m : AssignmentManager) : List ManagerOp → AssignmentManager
  | [] => m
  | op :: ops => runOps (applyOp m op) ops

/-- A conflict-free operation sequence: every `add` passes the program's own
guard (`check_page_conflicts` returns no conflict, as
`DocumentBatch.assign_pages_to_index` requires before inserting) and uses a
fresh assignment id (ids are `uuid4` values in the source). Removals are
unrestricted. -/
def validSeq (m : AssignmentManager) : List ManagerOp → Bool
  | [] => true
  | .add a :: ops =>
      (m.check_page_conflicts a.page_references).isEmpty &&
      (dictGet m.assignments a.assignment_id).isNone &&
      validSeq (applyOp m (.add a)) ops
  | .remove assignment_id :: ops =>
      validSeq (applyOp m (.remove assignment_id)) ops

/-- The synchronization invariant between the assignments dict and the page
index: both dicts have unique keys, every page is contained in at most one
held assignment, and the index maps each `page_id` to exactly the holder
(`head?` of the holder list; with uniqueness this is `none` iff no holder
exists and `some` of the unique holder otherwise). -/
structure Sync (m : AssignmentManager) : Prop where
  keys_assignments : (dictKeys m.assignments).Nodup
  keys_index : (dictKeys m.page_to_assignment).Nodup
  unique : ∀ pid : String, (m.holders pid).length ≤ 1
  index_eq : ∀ pid : String,
    dictGet m.page_to_assignment pid = (m.holders pid).head?

/-! ### `src/models/batch.py` — `DocumentBatch` -/

/-- `ScannedFile` (the attributes the modelled code paths read). -/
structure ScannedFile where
  file_id : String
  file_path : String
  page_count : Nat
  deriving DecidableEq, Repr

/-- `DocumentBatch` (the attributes the modelled code paths read). `files`
is the `_file_id_to_file` lookup dict. -/
structure DocumentBatch where
  batch_id : String := ""
  applied_schema : Option IndexSchema := none
  assignment_manager : AssignmentManager := {}
  files : List (String × ScannedFile) := []
  last_modified : DateTime
  deriving DecidableEq, Repr

/-- A human-readable message for each modelled exception. -/
def pyErrorMessage : PyError → String
  | .attributeError msg => msg
  | .schemaValidationError msg => "Schema validation error: " ++ msg
  | .pdfProcessingError msg => "PDF processing error: " ++ msg
  | .assignmentConflictError msg => "Assignment conflict: " ++ msg
  | .valueError msg => msg
  | .keyError msg => msg
  | .recursionError => "maximum recursion depth exceeded"

/-- `DocumentBatch.assign_pages_to_index`, in state-passing form: the result
of the call (the created assignment, or the raised
`AssignmentConflictError`) together with the batch afterwards. The conflict
check precedes every mutation, so the raising branch returns the batch
unchanged, exactly as the Python caller observes. -/
def DocumentBatch.assign_pages_to_index (b : DocumentBatch)
    (page_references : List PageReference)
    (index_values : List (String × String)) (fresh_id : String)
    (now : DateTime) : Except PyError PageAssignment × DocumentBatch :=
  let conflicts := b.assignment_manager.check_page_conflicts page_references
  if !conflicts.isEmpty then
    (.error (.assignmentConflictError ("Pages already assigned: " ++
      joinWith ", " (conflicts.map PageReference.page_id))), b)
  else
    let assignment := ((mkPageAssignment fresh_id b.applied_schema
      now).add_pages page_references now).update_index_values index_values now
    let mgr := b.assignment_manager.add_assignment assignment
    (.ok assignment, { b with assignment_manager := mgr, last_modified := now })

/-! ### `src/utils/validation.py` — `ValidationEngine` -/

/-- The attribute names `DocumentBatch.__init__` assigns, in source order.
`page_assignments` is not among them, so reading
`batch.page_assignments` raises `AttributeError`. -/
def documentBatchInitAttrs : List String :=
  ["batch_id", "staging_directory", "scanned_files", "assignment_manager",
   "applied_schema", "processing_state", "batch_timestamp", "last_modified",
   "created_by", "description", "_file_id_to_file", "_file_path_to_file",
   "_total_pages", "_validation_results"]

/-- Python attribute lookup of `name` on a `DocumentBatch`. -/
def documentBatchHasAttr (name : String) : Bool :=
  documentBatchInitAttrs.contains name

/-- The read of `batch.page_assignments` performed by
`ValidationEngine.validate_batch_assignments`. `DocumentBatch` never defines
that attribute (see `documentBatchInitAttrs`), so the read raises
`AttributeError`; the `.ok` branch is unreachable. -/
def batchPageAssignments (_ : DocumentBatch) :
    Except PyError (List PageAssignment) :=
  if documentBatchHasAttr "page_assignments" then .ok []
  else .error (.attributeError
    "DocumentBatch object has no attribute page_assignments")

/-- A structured error/conflict record produced by the validation engine
(the `type` key is `rtype` here). -/
structure ValidationRecord where
  rtype : String
  message : String := ""
  assignment_id : Option String := none
  field_name : Option String := none
  path : Option String := none
  conflicting_assignments : List String := []
  deriving DecidableEq, Repr

/-- `ValidationEngine.max_path_length` (platform dependent). -/
def engineMaxPathLength (isWindows : Bool) : Nat :=
  if isWindows then 260 else 4096

/-- `ValidationEngine.max_filename_length`. -/
def engineMaxFilenameLength : Nat := 255

/-- `ValidationEngine._get_invalid_path_characters`. -/
def engineInvalidPathChars (isWindows : Bool) : List Char :=
  if isWindows then ['<', '>', ':', '"', '|', '?', '*'] else [Char.ofNat 0]

/-- `ValidationEngine._get_invalid_filename_characters`. -/
def engineInvalidFilenameChars (isWindows : Bool) : List Char :=
  if isWindows then ['<', '>', ':', '"', '|', '?', '*', '/', '\\']
  else ['/', Char.ofNat 0]

/-- `ValidationEngine._validate_path_component`. -/
def enginePathComponentErrors (isWindows : Bool) (component : String) :
    List ValidationRecord :=
  if component = "" ∨ component = "." ∨ component = ".." then []
  else
    (if component.data.length > engineMaxFilenameLength then
      [{ rtype := "component_length_error",
         message := "Path component too long: " ++ component }] else []) ++
    (engineInvalidPathChars isWindows).filterMap (fun c =>
      if component.data.contains c then
        some { rtype := "invalid_character_error",
               message := "Path component contains invalid character" }
      else none)

/-- `ValidationEngine.validate_folder_structure`. -/
def engineValidateFolderStructure (isWindows : Bool)
    (folder_paths : List String) : List ValidationRecord :=
  (folder_paths.map (fun folder_path =>
    (if folder_path.data.length > engineMaxPathLength isWindows then
      [{ rtype := "path_too_long", path := some folder_path,
         message := "Path exceeds maximum length" }] else []) ++
    ((pySplitChar folder_path '/').map (fun component =>
      (enginePathComponentErrors isWindows component).map (fun e =>
        { e with path := some folder_path }))).flatten)).flatten

/-- `ValidationEngine._validate_filename`. -/
def engineValidateFilename (isWindows : Bool) (filename : String) :
    List ValidationRecord :=
  (if filename.data.length > engineMaxFilenameLength then
    [{ rtype := "filename_length_error",
       message := "Filename too long: " ++ filename }] else []) ++
  (engineInvalidFilenameChars isWindows).filterMap (fun c =>
    if filename.data.contains c then
      some { rtype := "invalid_character_error",
             message := "Filename contains invalid character" }
    else none) ++
  (if isWindows then
    (if is_reserved_name ((pySplitChar filename '.').headD "") then
      [{ rtype := "reserved_name_error",
         message := "Filename uses reserved name: " ++ filename }] else [])
   else [])

/-- `ValidationEngine.check_required_fields`. A missing schema makes the
loop header raise `AttributeError`, which the method catches into a
`validation_error` record. -/
def engineCheckRequiredFields (a : PageAssignment) : List ValidationRecord :=
  match a.schema with
  | none =>
      [{ rtype := "validation_error", assignment_id := some a.assignment_id,
         message := "Required field validation failed" }]
  | some schema =>
      schema.fields.filterMap (fun f =>
        if f.required ∧ pyStrip ((dictGet a.index_values f.name).getD "") = ""
        then some { rtype := "missing_required_field",
                    assignment_id := some a.assignment_id,
                    field_name := some f.name,
                    message := "Required field " ++ f.name ++ " is empty" }
        else none)

/-- Truthiness of the `validation_rules` dict. -/
def rulesNonempty (r : ValidationRules) : Bool :=
  r.min_length.isSome || r.max_length.isSome || r.pattern.isSome ||
  r.pattern_description.isSome || r.min_value.isSome || r.max_value.isSome ||
  r.integer_only.isSome || r.min_date.isSome || r.max_date.isSome

/-- `ValidationEngine._validate_field_by_type` (the engine has its own
per-type checks, distinct from `IndexField.validate_value`). -/
def engineValidateFieldByType (o : PyOracle) (f : IndexField)
    (value : String) : List ValidationRecord :=
  match f.field_type with
  | FieldType.TEXT =>
      if value.data.length > 255 then
        [{ rtype := "field_validation_error", field_name := some f.name,
           message := "Text field exceeds 255 characters" }]
      else []
  | FieldType.DATE =>
      if (o.parseDate value).isNone then
        [{ rtype := "field_validation_error", field_name := some f.name,
           message := "Invalid date format" }]
      else []
  | FieldType.NUMBER =>
      if !o.parseFloatOk value then
        [{ rtype := "field_validation_error", field_name := some f.name,
           message := "Invalid number format" }]
      else []
  | FieldType.DROPDOWN =>
      match f.dropdown_options with
      | some (opt :: opts) =>
          if !(opt :: opts).contains value then
            [{ rtype := "field_validation_error", field_name := some f.name,
               message := "Value not in dropdown options" }]
          else []
      | _ => []
  | FieldType.BOOLEAN =>
      if !(["true", "false", "1", "0", "yes", "no"].contains (strLower value))
      then
        [{ rtype := "field_validation_error", field_name := some f.name,
           message := "Invalid boolean value" }]
      else []

/-- `ValidationEngine._apply_custom_validation_rules`. -/
def engineCustomRules (o : PyOracle) (f : IndexField) (value : String) :
    List ValidationRecord :=
  if rulesNonempty f.validation_rules then
    (match f.validation_rules.pattern with
     | some pat =>
         if !o.reMatch pat value then
           [{ rtype := "field_validation_error", field_name := some f.name,
              message := "Field does not match required pattern" }]
         else []
     | none => []) ++
    (match f.validation_rules.min_length with
     | some lo =>
         if value.data.length < lo then
           [{ rtype := "field_validation_error", field_name := some f.name,
              message := "Field is too short" }]
         else []
     | none => []) ++
    (match f.validation_rules.max_length with
     | some hi =>
         if value.data.length > hi then
           [{ rtype := "field_validation_error", field_name := some f.name,
              message := "Field is too long" }]
         else []
     | none => [])
  else []

/-- `ValidationEngine.validate_field_values`. A missing schema raises at the
loop header and is caught into a `schema_validation_error` record. -/
def engineValidateFieldValues (o : PyOracle)
    (values : List (String × String)) (schema : Option IndexSchema) :
    List ValidationRecord :=
  match schema with
  | none =>
      [{ rtype := "schema_validation_error",
         message := "Field validation failed" }]
  | some schema =>
      (schema.fields.map (fun f =>
        let field_value := (dictGet values f.name).getD ""
        if field_value = "" ∧ ¬f.required then []
        else engineValidateFieldByType o f field_value ++
          engineCustomRules o f field_value)).flatten

/-- `ValidationEngine._validate_assignment_paths`: generate the folder path
and filename for the assignment and validate both; generation failures
(missing schema, template errors) are caught into a
`path_generation_error` record. The filename is generated WITHOUT a
timestamp argument, so the engine reads the ambient clock `now`. -/
def engineValidateAssignmentPaths (isWindows : Bool)
    (now : DateTime) (a : PageAssignment) : List ValidationRecord :=
  match a.schema with
  | none =>
      [{ rtype := "path_generation_error",
         assignment_id := some a.assignment_id,
         message := "Cannot generate paths" }]
  | some schema =>
      match schema.generate_filename a.index_values none none now with
      | .error _ =>
          [{ rtype := "path_generation_error",
             assignment_id := some a.assignment_id,
             message := "Cannot generate paths" }]
      | .ok filename =>
          let folder_path := schema.generate_folder_structure a.index_values
          engineValidateFolderStructure isWindows [folder_path] ++
          (engineValidateFilename isWindows filename).map (fun e =>
            { e with assignment_id := some a.assignment_id })

/-- `ValidationEngine._validate_page_references`. -/
def engineValidatePageReferences (a : PageAssignment) :
    List ValidationRecord :=
  if a.page_references.isEmpty then
    [{ rtype := "assignment_error", assignment_id := some a.assignment_id,
       message := "Assignment has no page references" }]
  else []

/-- `ValidationEngine._validate_single_assignment`. -/
def engineValidateSingleAssignment (o : PyOracle) (isWindows : Bool)
    (now : DateTime) (a : PageAssignment) : List ValidationRecord :=
  engineCheckRequiredFields a ++
  engineValidateFieldValues o a.index_values a.schema ++
  engineValidateAssignmentPaths isWindows now a ++
  engineValidatePageReferences a

/-- `ValidationEngine.check_naming_conflicts`: regenerate every assignment's
output path (lower-cased on Windows for comparison), bucket by the
normalized string, and report every bucket with more than one member as a
`duplicate_filename` conflict. Per-assignment generation failures become
`invalid_path` records, emitted before the bucket conflicts, as in the
source. -/
def engineCheckNamingConflicts (isWindows : Bool)
    (now : DateTime) (assignments : List PageAssignment) :
    List ValidationRecord :=
  let invalidPathRecord : PageAssignment → ValidationRecord := fun a =>
    { rtype := "invalid_path", assignment_id := some a.assignment_id,
      message := "Cannot generate path for assignment" }
  let step := assignments.foldl (fun
      (st : List (String × List String) × List ValidationRecord) a =>
    match a.schema with
    | none => (st.1, st.2 ++ [invalidPathRecord a])
    | some schema =>
        match schema.generate_filename a.index_values none none now with
        | .error _ => (st.1, st.2 ++ [invalidPathRecord a])
        | .ok filename =>
            let folder_path := schema.generate_folder_structure a.index_values
            let full_path :=
              if folder_path ≠ "" then
                folder_path ++ "/" ++ filename ++ ".pdf"
              else filename ++ ".pdf"
            let normalized := if isWindows then strLower full_path
              else full_path
            match dictGet st.1 normalized with
            | some ids =>
                (dictInsert st.1 normalized (ids ++ [a.assignment_id]), st.2)
            | none => (dictInsert st.1 normalized [a.assignment_id], st.2))
    ([], [])
  step.2 ++ step.1.filterMap (fun kv =>
    if kv.2.length > 1 then
      some { rtype := "duplicate_filename", path := some kv.1,
             conflicting_assignments := kv.2,
             message := "Multiple assignments would create the same file" }
    else none)

/-- `ValidationEngine._validate_batch_folder_structure`: collect every
assignment's generated folder path (silently skipping assignments whose
generation raises) and validate the collection. Folder generation itself
cannot raise, so only the missing-schema case is skipped. -/
def engineValidateBatchFolderStructure (isWindows : Bool)
    (assignments : List PageAssignment) : List ValidationRecord :=
  engineValidateFolderStructure isWindows
    (assignments.filterMap (fun a =>
      a.schema.map (fun s => s.generate_folder_structure a.index_values)))

/-- `ValidationEngine._check_duplicate_page_assignments`: an independent
`page_id` to assignment-ids map over all assignments; every page claimed by
more than one assignment becomes a record. -/
def engineCheckDuplicatePages (assignments : List PageAssignment) :
    List ValidationRecord :=
  let page_map := assignments.foldl (fun d a =>
    a.page_references.foldl (fun d r =>
      match dictGet d r.page_id with
      | some ids => dictInsert d r.page_id (ids ++ [a.assignment_id])
      | none => dictInsert d r.page_id [a.assignment_id]) d) []
  page_map.filterMap (fun kv =>
    if kv.2.length > 1 then
      some { rtype := "duplicate_page_assignment",
             conflicting_assignments := kv.2,
             message := "Page " ++ kv.1 ++
               " is assigned to multiple assignments" }
    else none)

/-- The body of `validate_batch_assignments` after the assignment list has
been read (unreachable for a `DocumentBatch`, which has no
`page_assignments` attribute; modelled for completeness). -/
def validateBatchAssignmentsLoaded (o : PyOracle) (isWindows : Bool)
    (now : DateTime) (assignments : List PageAssignment) :
    Bool × List ValidationRecord :=
  if assignments.isEmpty then (true, [])
  else
    let errors :=
      (assignments.map (engineValidateSingleAssignment o isWindows
        now)).flatten ++
      engineCheckNamingConflicts isWindows now assignments ++
      engineValidateBatchFolderStructure isWindows assignments ++
      engineCheckDuplicatePages assignments
    (errors.isEmpty, errors)

/-- `ValidationEngine.validate_batch_assignments`: the whole body runs under
a `try` whose handler returns `(False, [single system_error record])`. The
very first statement reads `batch.page_assignments`, which raises
`AttributeError` for every `DocumentBatch`. -/
def validateBatchAssignments (o : PyOracle) (isWindows : Bool)
    (now : DateTime) (b : DocumentBatch) : Bool × List ValidationRecord :=
  match batchPageAssignments b with
  | .ok assignments => validateBatchAssignmentsLoaded o isWindows now
      assignments
  | .error e =>
      (false, [{ rtype := "system_error",
                 message := "Batch validation failed: " ++ pyErrorMessage e }])

/-! ### `src/processing/document_processor.py` -/

/-- `ProcessingResult` (the fields the claims mention). -/
structure ProcessingResult where
  assignment_id : String
  success : Bool
  output_path : Option String := none
  error_message : Option String := none
  page_count : Nat := 0
  deriving DecidableEq, Repr

/-- The file-system and PDF-service environment the processor runs
against: whether a path exists, whether `merge_pages` succeeds, whether
`add_metadata` succeeds, and whether the output directory can be created. -/
structure ProcEnv where
  fileExists : String → Bool
  mergeOk : List (String × Nat) → String → Bool
  metadataOk : String → Bool
  mkdirOk : String → Bool

/-- The processor configuration fields the modelled paths read.
`stack_fuel` models the Python call-stack budget for the recursive
`_handle_file_conflict` (exhausting it is a `RecursionError`). -/
structure ProcConfig where
  conflict_resolution : ConflictResolution
  create_summary : Bool := true
  stack_fuel : Nat := 1000

/-- `Path.name` of a `/`-joined path string. -/
def pathName (p : String) : String := (pySplitChar p '/').getLastD ""

/-- `Path.parent` of a `/`-joined path string, as a string (empty for a
bare filename). -/
def pathParentStr (p : String) : String :=
  let parts := pySplitChar p '/'
  if parts.length ≤ 1 then "" else joinWith "/" parts.dropLast

/-- `Path.suffix`: the final extension of the name, with its dot. -/
def pathSuffixStr (p : String) : String :=
  let nm := pathName p
  let parts := pySplitChar nm '.'
  if parts.length ≥ 2 then "." ++ parts.getLastD "" else ""

/-- `Path.stem`: the name without its final extension. -/
def pathStemStr (p : String) : String :=
  let nm := pathName p
  let sfx := pathSuffixStr p
  String.mk (nm.data.take (nm.data.length - sfx.data.length))

/-- `parent / name` as a string. -/
def pathJoin (parent name : String) : String :=
  if parent = "" then name else parent ++ "/" ++ name

/-- The `AUTO_RENAME` while-loop: while the candidate exists, rebuild it
from the CURRENT stem plus `_counter` (so the stem grows:
`x_1`, `x_1_2`, ...), incrementing the counter. The fuel bounds the number
of iterations; running out models the loop never finding a free path. -/
def autoRenameLoop (env : ProcEnv) :
    Nat → String → Nat → Except PyError String
  | 0, _, _ => .error .recursionError
  | fuel + 1, output_file, counter =>
      if env.fileExists output_file then
        autoRenameLoop env fuel
          (pathJoin (pathParentStr output_file)
            (pathStemStr output_file ++ "_" ++ toString counter ++
              pathSuffixStr output_file))
          (counter + 1)
      else .ok output_file

/-- `DocumentProcessor._handle_file_conflict`. The `else` branch (reached
for `PROMPT_USER` and `MERGE`) calls the method again with IDENTICAL
arguments and unchanged configuration, so it recurses until the Python
recursion limit (`fuel` here) is exhausted and raises `RecursionError`; it
never reaches the `AUTO_RENAME` branch. -/
def handleFileConflict (env : ProcEnv) (policy : ConflictResolution) :
    Nat → String → Except PyError String
  | 0, _ => .error .recursionError
  | fuel + 1, output_file =>
      match policy with
      | .OVERWRITE => .ok output_file
      | .AUTO_RENAME => autoRenameLoop env fuel output_file 1
      | .SKIP_DUPLICATE =>
          .error (.assignmentConflictError
            ("File already exists: " ++ output_file))
      | _ => handleFileConflict env policy fuel output_file

/-- `DocumentProcessor._get_file_path_for_page_reference`: look the file id
up in the batch. -/
def getFilePathForPageReference (b : DocumentBatch) (r : PageReference) :
    Option String :=
  (dictGet b.files r.file_id).map ScannedFile.file_path

/-- Resolve one page reference to an existing source path, as the loop body
of `_process_single_assignment` does (`file_path and file_path.exists()`). -/
def resolvePageRef (env : ProcEnv) (b : DocumentBatch) (r : PageReference) :
    Option String :=
  match getFilePathForPageReference b r with
  | some p => if env.fileExists p then some p else none
  | none => none

/-- The page-resolution loop: build the ordered `(source path, page number)`
list, raising `PDFProcessingError` at the first unresolvable reference. -/
def resolveAll (env : ProcEnv) (b : DocumentBatch) :
    List PageReference → Except PyError (List (String × Nat))
  | [] => .ok []
  | r :: rest =>
      match resolvePageRef env b r with
      | some p => do
          let tl ← resolveAll env b rest
          .ok ((p, r.page_number) :: tl)
      | none =>
          .error (.pdfProcessingError
            ("Source file not found for page reference: " ++ r.page_id))

/-- The conflict-handling step of `_process_single_assignment`:
`if output_file.exists(): output_file = self._handle_file_conflict(...)`. -/
def resolveOutputConflict (cfg : ProcConfig) (env : ProcEnv)
    (output_file : String) : Except PyError String :=
  if env.fileExists output_file then
    handleFileConflict env cfg.conflict_resolution cfg.stack_fuel output_file
  else .ok output_file

/-- The body of `_process_single_assignment` up to the point where the
result record is built; any `.error` is caught by the method and turned
into a failed `ProcessingResult`. -/
def processSingleSteps (cfg : ProcConfig) (env : ProcEnv)
    (b : DocumentBatch) (output_directory : String) (a : PageAssignment) :
    Except PyError (String × Nat) := do
  let pr ← a.generate_document_preview
  let output_file ← resolveOutputConflict cfg env
    (output_directory ++ "/" ++ pr.2.get_full_path)
  let page_refs ← resolveAll env b pr.1.page_references
  if page_refs.isEmpty then
    .error (.pdfProcessingError "No valid page references found for assignment")
  else if !env.mergeOk page_refs output_file then
    .error (.pdfProcessingError "PDF merging failed")
  else if !pr.1.index_values.isEmpty ∧ !env.metadataOk output_file then
    .error (.pdfProcessingError "metadata write failed")
  else
    .ok (output_file, pr.1.page_references.length)

/-- `DocumentProcessor._process_single_assignment`: run the steps, catching
any exception into a failed `ProcessingResult`. -/
def processSingleAssignment (cfg : ProcConfig) (env : ProcEnv)
    (b : DocumentBatch) (output_directory : String) (a : PageAssignment) :
    ProcessingResult :=
  match processSingleSteps cfg env b output_directory a with
  | .ok (output_file, n) =>
      { assignment_id := a.assignment_id, success := true,
        output_path := some output_file, page_count := n }
  | .error e =>
      { assignment_id := a.assignment_id, success := false,
        error_message := some (pyErrorMessage e) }

/-- The assignment loop of `_process_batch_internal`. `flag i` is the value
of the cooperative `should_cancel` flag observed at its `i`-th read (the
check at the top of each iteration); the loop breaks when it observes
`true`. Returns the accumulated results and the index of the next read. -/
def procLoop (cfg : ProcConfig) (env : ProcEnv) (b : DocumentBatch)
    (output_directory : String) (flag : Nat → Bool) :
    List PageAssignment → Nat → List ProcessingResult × Nat
  | [], i => ([], i)
  | a :: rest, i =>
      if flag i then ([], i)
      else
        let r := processSingleAssignment cfg env b output_directory a
        let rec_result := procLoop cfg env b output_directory flag rest (i + 1)
        (r :: rec_result.1, rec_result.2)

/-- `DocumentProcessor._process_batch_internal`: create the output
directory (failure escapes the per-assignment handling and drives the batch
to `ERROR`), snapshot the assignment collection, run the sequential loop
with the cooperative cancel flag, optionally write the summary (skipped
when cancelled), and set the terminal state — `COMPLETED` when the flag was
never observed set, `CANCELLED` otherwise. Returns
`(final state, result list, summary written)`. -/
def processBatchInternal (cfg : ProcConfig) (env : ProcEnv)
    (b : DocumentBatch) (output_directory : String) (flag : Nat → Bool) :
    ProcessingState × List ProcessingResult × Bool :=
  if !env.mkdirOk output_directory then (.ERROR, [], false)
  else
    let snapshot := b.assignment_manager.assignments.map Prod.snd
    let lp := procLoop cfg env b output_directory flag snapshot 0
    let summary_written := cfg.create_summary && !flag lp.2
    let state := if !flag (lp.2 + 1) then ProcessingState.COMPLETED
      else ProcessingState.CANCELLED
    (state, lp.1, summary_written)

/-- The outcome of `DocumentProcessor.process_batch` before any worker
runs: rejected because a run is active, rejected because batch validation
failed, or started (the internal task submitted). -/
inductive ProcessOutcome where
  | rejectedBusy
  | rejectedInvalid (errors : List ValidationRecord)
  | started
  deriving DecidableEq, Repr

/-- `DocumentProcessor.process_batch` up to the submission of the internal
task: reject when already processing; validate the batch and reject without
starting the loop (and hence without writing any output file) when
validation reports invalid; otherwise start. -/
def processBatch (is_processing : Bool) (o : PyOracle) (isWindows : Bool)
    (now : DateTime) (b : DocumentBatch) : ProcessOutcome :=
  if is_processing then .rejectedBusy
  else
    let v := validateBatchAssignments o isWindows now b
    if !v.1 then .rejectedInvalid v.2
    else .started

/-- The boolean `process_batch` returns. -/
def processBatchReturn : ProcessOutcome → Bool
  | .started => true
  | _ => false

/-! ### Specification-side characterization of `get_filename_conflicts`

`conflictsSpec` restates, in direct recursive form, what the loop in
`get_filename_conflicts` computes: each previewed assignment that has an
EARLIER previewed assignment with the same full output path contributes one
tuple, paired with the first such assignment. It is compared with the
source-translated `AssignmentManager.get_filename_conflicts` below. -/

/-- The id of the first entry among `prev` whose cached preview has the
given full path. -/
def firstWithPath (prev : List (String × PageAssignment))
    (full_path : String) : Option String :=
  (prev.find? (fun e =>
    match e.2.document_preview with
    | some preview => preview.get_full_path = full_path
    | none => false)).map Prod.fst

/-- Direct recursive characterization of the conflict list: walk the
entries, reporting each previewed entry whose path already occurred against
the first earlier entry with that path. -/
def conflictsSpec (prev : List (String × PageAssignment)) :
    List (String × PageAssignment) → List (String × String × String)
  | [] => []
  | e :: rest =>
      match e.2.document_preview with
      | none => conflictsSpec (prev ++ [e]) rest
      | some preview =>
          match firstWithPath prev preview.get_full_path with
          | some first_id =>
              (first_id, e.1, preview.get_full_path) ::
                conflictsSpec (prev ++ [e]) rest
          | none => conflictsSpec (prev ++ [e]) rest

/-! ### Concrete fixtures for witnesses and counterexamples -/

/-- An arbitrary concrete oracle instance (used only to instantiate
oracle-parametric theorems at concrete inputs). -/
def trivialOracle : PyOracle :=
  { reMatch := fun _ _ => true, parseDate := fun _ => none,
    parseFloatOk := fun _ => true, floatCmpLt := fun _ _ => false,
    floatCmpGt := fun _ _ => false }

/-- A concrete clock value. -/
def dt0 : DateTime := { year := 2024, month := 1, day := 15,
                        hour := 10, minute := 30, second := 0 }

/-- A later concrete clock value. -/
def dt1 : DateTime := { year := 2024, month := 1, day := 15,
                        hour := 10, minute := 31, second := 0 }

/-- A concrete schema: one FOLDER field `Category`, one FILENAME field
`Date`, template `{date}` (the scenario of spec section 8). -/
def sampleSchema : IndexSchema :=
  { name := "General",
    fields := [{ name := "Category", field_type := FieldType.TEXT,
                 role := FieldRole.FOLDER, display_order := 1 },
               { name := "Date", field_type := FieldType.TEXT,
                 role := FieldRole.FILENAME, display_order := 2 }],
    filename_template := "{date}" }

/-- A concrete assignment under `sampleSchema` with identical field values
(`Category = Invoices`, `Date = 2024-01-15`) and a cached document preview,
built through the public construction path
(`__init__`, `add_pages`, `update_index_values`,
`generate_document_preview`). -/
def sampleAssignment (assignment_id : String) (refs : List PageReference) :
    PageAssignment :=
  let a := (((mkPageAssignment assignment_id (some sampleSchema)
    dt0).add_pages refs dt0).update_index_values
    [("Category", "Invoices"), ("Date", "2024-01-15")] dt0)
  match a.generate_document_preview with
  | .ok p => p.1
  | .error _ => a

/-- Three previewed assignments with pairwise-equal output paths, inserted
in order `A`, `B`, `C`. -/
def threeWayManager : AssignmentManager :=
  ((emptyManager.add_assignment
    (sampleAssignment "A" [{ file_id := "f", page_number := 1 }])).add_assignment
    (sampleAssignment "B" [{ file_id := "f", page_number := 2 }])).add_assignment
    (sampleAssignment "C" [{ file_id := "f", page_number := 3 }])

/-- A bare assignment holding the given references and nothing else
(constructed through `__init__` + `add_pages`). -/
def bareAssignment (assignment_id : String) (refs : List PageReference) :
    PageAssignment :=
  (mkPageAssignment assignment_id none dt0).add_pages refs dt0

/-- Page 1 of file `f`. -/
def pg1 : PageReference := { file_id := "f", page_number := 1 }

/-- Page 2 of file `f`. -/
def pg2 : PageReference := { file_id := "f", page_number := 2 }

/-- Two overlapping adds: both `A1` and `A2` claim page `f:1`. This
sequence passes no conflict guard (`add_assignment` itself performs none). -/
def overlapOps : List ManagerOp :=
  [ManagerOp.add (bareAssignment "A1" [pg1]),
   ManagerOp.add (bareAssignment "A2" [pg1])]

/-- The overlapping adds followed by removal of the second owner. -/
def overlapRemoveOps : List ManagerOp :=
  overlapOps ++ [ManagerOp.remove "A2"]

/-- A concrete batch for processing runs: source file `src1.pdf` (3 pages)
is known under file id `fA`; the manager holds a good assignment `G`
referencing that file and a bad assignment `X` referencing the unknown file
id `missing`. -/
def sampleBatch : DocumentBatch :=
  { batch_id := "batch1",
    applied_schema := some sampleSchema,
    assignment_manager :=
      (emptyManager.add_assignment
        (sampleAssignment "G" [{ file_id := "fA", page_number := 1 }])).add_assignment
        (sampleAssignment "X" [{ file_id := "missing", page_number := 1 }]),
    files := [("fA", { file_id := "fA", file_path := "src1.pdf",
                       page_count := 3 })],
    last_modified := dt0 }

/-- A concrete environment: only the source file `src1.pdf` exists, merges
and metadata writes succeed, the output directory can be created. -/
def sampleEnv : ProcEnv :=
  { fileExists := fun p => p = "src1.pdf",
    mergeOk := fun _ _ => true,
    metadataOk := fun _ => true,
    mkdirOk := fun _ => true }

/-- A concrete processor configuration. -/
def sampleConfig : ProcConfig :=
  { conflict_resolution := ConflictResolution.AUTO_RENAME }

/-! ## Theorems

Everything from here on is a lemma or a claim theorem; there are no further
definitions. -/

theorem dictKeys_nil {α : Type} : dictKeys ([] : List (String × α)) = [] :=
  rfl

theorem dictKeys_cons {α : Type} (k : String) (v : α)
    (d : List (String × α)) : dictKeys ((k, v) :: d) = k :: dictKeys d :=
  rfl

theorem dictGet_nil {α : Type} (k : String) :
    dictGet ([] : List (String × α)) k = none :=
  rfl

theorem dictGet_cons {α : Type} (k0 : String) (v0 : α)
    (rest : List (String × α)) (k : String) :
    dictGet ((k0, v0) :: rest) k =
      if k0 = k then some v0 else dictGet rest k :=
  rfl

theorem dictInsert_nil {α : Type} (k : String) (v : α) :
    dictInsert ([] : List (String × α)) k v = [(k, v)] :=
  rfl

theorem dictInsert_cons {α : Type} (k0 : String) (v0 : α)
    (rest : List (String × α)) (k : String) (v : α) :
    dictInsert ((k0, v0) :: rest) k v =
      if k0 = k then (k0, v) :: rest else (k0, v0) :: dictInsert rest k v :=
  rfl

theorem dictRemove_nil {α : Type} (k : String) :
    dictRemove ([] : List (String × α)) k = [] :=
  rfl

theorem dictRemove_cons {α : Type} (k0 : String) (v0 : α)
    (rest : List (String × α)) (k : String) :
    dictRemove ((k0, v0) :: rest) k =
      if k0 = k then rest else (k0, v0) :: dictRemove rest k :=
  rfl

theorem dictGet_insert {α : Type} (d : List (String × α)) (k k' : String)
    (v : α) :
    dictGet (dictInsert d k v) k' = if k = k' then some v else dictGet d k' := by
  induction d with
  | nil =>
      rw [dictInsert_nil, dictGet_cons, dictGet_nil]
  | cons e rest ih =>
      obtain ⟨k0, v0⟩ := e
      rw [dictInsert_cons]
      by_cases h0 : k0 = k
      · subst h0
        rw [if_pos rfl, dictGet_cons, dictGet_cons]
        split_ifs <;> simp_all
      · rw [if_neg h0, dictGet_cons, dictGet_cons, ih]
        split_ifs <;> simp_all

theorem dictInsert_eq_append {α : Type} (d : List (String × α))
    (k : String) (v : α) (h : dictGet d k = none) :
    dictInsert d k v = d ++ [(k, v)] := by
  induction d with
  | nil => rfl
  | cons e rest ih =>
      obtain ⟨k0, v0⟩ := e
      rw [dictGet_cons] at h
      by_cases h0 : k0 = k
      · rw [if_pos h0] at h
        exact absurd h (by simp)
      · rw [if_neg h0] at h
        rw [dictInsert_cons, if_neg h0, ih h, List.cons_append]

theorem dictGet_eq_none_iff {α : Type} (d : List (String × α)) (k : String) :
    dictGet d k = none ↔ k ∉ dictKeys d := by
  induction d with
  | nil => simp [dictGet_nil, dictKeys_nil]
  | cons e rest ih =>
      obtain ⟨k0, v0⟩ := e
      rw [dictGet_cons, dictKeys_cons, List.mem_cons]
      by_cases h0 : k0 = k
      · rw [if_pos h0]
        simp [h0.symm]
      · rw [if_neg h0, ih]
        have : ¬(k = k0) := fun hh => h0 hh.symm
        tauto

theorem mem_dictKeys_insert {α : Type} (d : List (String × α))
    (k : String) (v : α) (x : String) :
    x ∈ dictKeys (dictInsert d k v) ↔ x ∈ dictKeys d ∨ x = k := by
  induction d with
  | nil =>
      rw [dictInsert_nil, dictKeys_cons, dictKeys_nil]
      simp
  | cons e rest ih =>
      obtain ⟨k0, v0⟩ := e
      rw [dictInsert_cons]
      by_cases h0 : k0 = k
      · subst h0
        rw [if_pos rfl, dictKeys_cons, dictKeys_cons]
        simp only [List.mem_cons]
        tauto
      · rw [if_neg h0, dictKeys_cons, dictKeys_cons]
        simp only [List.mem_cons, ih]
        tauto

theorem dictKeys_insert_nodup {α : Type} (d : List (String × α))
    (k : String) (v : α) (hd : (dictKeys d).Nodup) :
    (dictKeys (dictInsert d k v)).Nodup := by
  induction d with
  | nil =>
      rw [dictInsert_nil, dictKeys_cons, dictKeys_nil]
      exact List.nodup_singleton k
  | cons e rest ih =>
      obtain ⟨k0, v0⟩ := e
      rw [dictKeys_cons, List.nodup_cons] at hd
      rw [dictInsert_cons]
      by_cases h0 : k0 = k
      · rw [if_pos h0, dictKeys_cons, List.nodup_cons]
        exact hd
      · rw [if_neg h0, dictKeys_cons, List.nodup_cons]
        refine ⟨?_, ih hd.2⟩
        intro hmem
        rcases (mem_dictKeys_insert rest k v k0).mp hmem with h | h
        · exact hd.1 h
        · exact h0 h

theorem dictRemove_sublist {α : Type} (d : List (String × α)) (k : String) :
    (dictRemove d k).Sublist d := by
  induction d with
  | nil => rw [dictRemove_nil]
  | cons e rest ih =>
      obtain ⟨k0, v0⟩ := e
      rw [dictRemove_cons]
      by_cases h0 : k0 = k
      · rw [if_pos h0]
        exact List.sublist_cons_self (k0, v0) rest
      · rw [if_neg h0]
        exact ih.cons₂ (k0, v0)

theorem dictKeys_remove_nodup {α : Type} (d : List (String × α))
    (k : String) (hd : (dictKeys d).Nodup) :
    (dictKeys (dictRemove d k)).Nodup :=
  ((dictRemove_sublist d k).map Prod.fst).nodup hd

theorem dictGet_remove {α : Type} (d : List (String × α)) (k k' : String)
    (hd : (dictKeys d).Nodup) :
    dictGet (dictRemove d k) k' = if k = k' then none else dictGet d k' := by
  induction d with
  | nil =>
      rw [dictRemove_nil, dictGet_nil]
      split_ifs <;> rfl
  | cons e rest ih =>
      obtain ⟨k0, v0⟩ := e
      rw [dictKeys_cons, List.nodup_cons] at hd
      rw [dictRemove_cons]
      by_cases h0 : k0 = k
      · subst h0
        rw [if_pos rfl, dictGet_cons]
        by_cases h1 : k0 = k'
        · subst h1
          rw [if_pos rfl]
          exact (dictGet_eq_none_iff rest k0).mpr hd.1
        · rw [if_neg h1, if_neg (fun hh : k0 = k' => h1 hh)]
      · rw [if_neg h0, dictGet_cons, dictGet_cons, ih hd.2]
        split_ifs <;> simp_all

theorem dictGet_split {α : Type} (d : List (String × α)) (k : String)
    (v : α) (h : dictGet d k = some v) :
    ∃ l1 l2, d = l1 ++ (k, v) :: l2 ∧ k ∉ dictKeys l1 ∧
      dictRemove d k = l1 ++ l2 := by
  induction d with
  | nil => exact absurd h (by rw [dictGet_nil]; simp)
  | cons e rest ih =>
      obtain ⟨k0, v0⟩ := e
      rw [dictGet_cons] at h
      by_cases h0 : k0 = k
      · rw [if_pos h0] at h
        obtain rfl : v0 = v := by injection h
        refine ⟨[], rest, ?_, ?_, ?_⟩
        · rw [List.nil_append, h0]
        · rw [dictKeys_nil]
          exact List.not_mem_nil k
        · rw [dictRemove_cons, if_pos h0, List.nil_append]
      · rw [if_neg h0] at h
        obtain ⟨l1, l2, hsplit, hmem, hrem⟩ := ih h
        refine ⟨(k0, v0) :: l1, l2, ?_, ?_, ?_⟩
        · rw [List.cons_append, hsplit]
        · rw [dictKeys_cons, List.mem_cons]
          rintro (hh | hh)
          · exact h0 hh.symm
          · exact hmem hh
        · rw [dictRemove_cons, if_neg h0, hrem, List.cons_append]

theorem dictGet_foldl_insert (refs : List PageReference)
    (d : List (String × String)) (aid pid : String) :
    dictGet (refs.foldl (fun d r => dictInsert d r.page_id aid) d) pid =
      if refs.any (fun r => r.page_id = pid) then some aid
      else dictGet d pid := by
  induction refs generalizing d with
  | nil => simp
  | cons r rest ih =>
      simp only [List.foldl_cons, List.any_cons]
      rw [ih]
      by_cases hr : r.page_id = pid
      · by_cases ha : rest.any (fun r => r.page_id = pid) = true <;>
          simp [hr, ha, dictGet_insert]
      · by_cases ha : rest.any (fun r => r.page_id = pid) = true <;>
          simp [hr, ha, dictGet_insert]

theorem dictKeys_foldl_insert_nodup (refs : List PageReference)
    (d : List (String × String)) (aid : String)
    (hd : (dictKeys d).Nodup) :
    (dictKeys (refs.foldl (fun d r => dictInsert d r.page_id aid) d)).Nodup := by
  induction refs generalizing d with
  | nil => simpa
  | cons r rest ih =>
      simp only [List.foldl_cons]
      exact ih _ (dictKeys_insert_nodup _ _ _ hd)

theorem dictKeys_foldl_remove_nodup (refs : List PageReference)
    (d : List (String × String)) (hd : (dictKeys d).Nodup) :
    (dictKeys (refs.foldl (fun d r => dictRemove d r.page_id) d)).Nodup := by
  induction refs generalizing d with
  | nil => simpa
  | cons r rest ih =>
      simp only [List.foldl_cons]
      exact ih _ (dictKeys_remove_nodup _ _ hd)

theorem dictGet_foldl_remove (refs : List PageReference)
    (d : List (String × String)) (pid : String)
    (hd : (dictKeys d).Nodup) :
    dictGet (refs.foldl (fun d r => dictRemove d r.page_id) d) pid =
      if refs.any (fun r => r.page_id = pid) then none
      else dictGet d pid := by
  induction refs generalizing d with
  | nil => simp
  | cons r rest ih =>
      simp only [List.foldl_cons, List.any_cons]
      rw [ih _ (dictKeys_remove_nodup _ _ hd)]
      by_cases hr : r.page_id = pid
      · by_cases ha : rest.any (fun r => r.page_id = pid) = true <;>
          simp [hr, ha, dictGet_remove _ _ _ hd]
      · by_cases ha : rest.any (fun r => r.page_id = pid) = true <;>
          simp [hr, ha, dictGet_remove _ _ _ hd]

theorem eq_singleton_of_mem_of_length_le {α : Type} (l : List α) (x : α)
    (hm : x ∈ l) (hl : l.length ≤ 1) : l = [x] := by
  match l with
  | [] => exact absurd hm (List.not_mem_nil x)
  | [y] =>
      rw [List.mem_singleton] at hm
      rw [hm]
  | y :: z :: t => simp at hl

theorem add_assignment_assignments (m : AssignmentManager)
    (a : PageAssignment) :
    (m.add_assignment a).assignments =
      dictInsert m.assignments a.assignment_id a :=
  rfl

theorem add_assignment_index (m : AssignmentManager) (a : PageAssignment) :
    (m.add_assignment a).page_to_assignment =
      a.page_references.foldl
        (fun d r => dictInsert d r.page_id a.assignment_id)
        m.page_to_assignment :=
  rfl

theorem holders_def (m : AssignmentManager) (pid : String) :
    m.holders pid = (m.assignments.filter (holdsPage pid)).map Prod.fst :=
  rfl

theorem check_conflicts_empty (m : AssignmentManager)
    (refs : List PageReference)
    (h : (m.check_page_conflicts refs).isEmpty = true) :
    ∀ r ∈ refs, dictGet m.page_to_assignment r.page_id = none := by
  intro r hr
  rw [List.isEmpty_iff] at h
  unfold AssignmentManager.check_page_conflicts at h
  have hnp := List.filter_eq_nil_iff.mp h r hr
  cases hopt : dictGet m.page_to_assignment r.page_id with
  | none => rfl
  | some x => simp [hopt] at hnp

theorem holders_eq_nil_of_index_none (m : AssignmentManager) (hs : Sync m)
    (pid : String) (h : dictGet m.page_to_assignment pid = none) :
    m.holders pid = [] := by
  have he := hs.index_eq pid
  rw [h] at he
  exact List.head?_eq_none_iff.mp he.symm

theorem holders_add (m : AssignmentManager) (a : PageAssignment)
    (pid : String)
    (hfresh : dictGet m.assignments a.assignment_id = none) :
    (m.add_assignment a).holders pid =
      m.holders pid ++
        (if holdsPage pid (a.assignment_id, a) = true
         then [a.assignment_id] else []) := by
  rw [holders_def, holders_def, add_assignment_assignments,
    dictInsert_eq_append _ _ _ hfresh, List.filter_append, List.map_append]
  by_cases hp : holdsPage pid (a.assignment_id, a) = true
  · rw [if_pos hp]
    simp [List.filter_cons, hp]
  · rw [if_neg hp]
    rw [Bool.not_eq_true] at hp
    simp [List.filter_cons, hp]

theorem sync_empty : Sync emptyManager := by
  refine ⟨List.nodup_nil, List.nodup_nil, ?_, ?_⟩
  · intro pid
    simp [holders_def, emptyManager]
  · intro pid
    simp [holders_def, emptyManager, dictGet_nil]

theorem sync_add (m : AssignmentManager) (a : PageAssignment) (hs : Sync m)
    (hfresh : dictGet m.assignments a.assignment_id = none)
    (hconf : (m.check_page_conflicts a.page_references).isEmpty = true) :
    Sync (m.add_assignment a) := by
  have hnone := check_conflicts_empty m a.page_references hconf
  have holders_nil_of_any :
      ∀ pid : String,
        a.page_references.any (fun r => r.page_id = pid) = true →
        m.holders pid = [] := by
    intro pid hp
    rw [List.any_eq_true] at hp
    obtain ⟨r, hr, hrid⟩ := hp
    rw [decide_eq_true_eq] at hrid
    exact holders_eq_nil_of_index_none m hs pid (hrid ▸ hnone r hr)
  refine ⟨?_, ?_, ?_, ?_⟩
  · exact dictKeys_insert_nodup _ _ _ hs.keys_assignments
  · exact dictKeys_foldl_insert_nodup _ _ _ hs.keys_index
  · intro pid
    rw [holders_add m a pid hfresh]
    by_cases hp : holdsPage pid (a.assignment_id, a) = true
    · rw [if_pos hp, holders_nil_of_any pid hp]
      simp
    · rw [if_neg hp]
      simpa using hs.unique pid
  · intro pid
    rw [holders_add m a pid hfresh]
    show dictGet (a.page_references.foldl
      (fun d r => dictInsert d r.page_id a.assignment_id)
      m.page_to_assignment) pid = _
    rw [dictGet_foldl_insert]
    by_cases hp : a.page_references.any (fun r => r.page_id = pid) = true
    · rw [if_pos hp, holders_nil_of_any pid hp]
      have hPa : holdsPage pid (a.assignment_id, a) = true := hp
      rw [if_pos hPa]
      rfl
    · rw [if_neg hp]
      have hPa : ¬(holdsPage pid (a.assignment_id, a) = true) := hp
      rw [if_neg hPa, List.append_nil]
      exact hs.index_eq pid

theorem sync_remove (m : AssignmentManager) (aid : String) (hs : Sync m) :
    Sync (m.remove_assignment aid).1 := by
  cases hget : dictGet m.assignments aid with
  | none =>
      have hres : (m.remove_assignment aid).1 = m := by
        unfold AssignmentManager.remove_assignment
        rw [hget]
      rw [hres]
      exact hs
  | some a =>
      have hres : (m.remove_assignment aid).1 =
          { assignments := dictRemove m.assignments aid,
            page_to_assignment := a.page_references.foldl
              (fun d r => dictRemove d r.page_id) m.page_to_assignment } := by
        unfold AssignmentManager.remove_assignment
        rw [hget]
      rw [hres]
      obtain ⟨l1, l2, hsplit, hmem1, hrem⟩ := dictGet_split _ _ _ hget
      refine ⟨?_, ?_, ?_, ?_⟩
      · exact dictKeys_remove_nodup _ _ hs.keys_assignments
      · exact dictKeys_foldl_remove_nodup _ _ hs.keys_index
      · intro pid
        have hsub := List.Sublist.length_le
          (List.Sublist.map Prod.fst
            (List.Sublist.filter (holdsPage pid)
              (dictRemove_sublist m.assignments aid)))
        exact le_trans hsub (hs.unique pid)
      · intro pid
        show dictGet (a.page_references.foldl
          (fun d r => dictRemove d r.page_id) m.page_to_assignment) pid =
          ((dictRemove m.assignments aid |>.filter
            (holdsPage pid)).map Prod.fst).head?
        rw [dictGet_foldl_remove _ _ _ hs.keys_index]
        by_cases hp : a.page_references.any (fun r => r.page_id = pid) = true
        · rw [if_pos hp]
          have hPa : holdsPage pid (aid, a) = true := hp
          have hmema : (aid, a) ∈ m.assignments := by
            rw [hsplit]
            exact List.mem_append_right _ (List.mem_cons_self _ _)
          have hmemh : aid ∈ m.holders pid := by
            rw [holders_def]
            exact List.mem_map.mpr ⟨(aid, a),
              List.mem_filter.mpr ⟨hmema, hPa⟩, rfl⟩
          have hsingle : m.holders pid = [aid] :=
            eq_singleton_of_mem_of_length_le _ _ hmemh (hs.unique pid)
          have hdecomp : (l1.filter (holdsPage pid)).map Prod.fst ++
              aid :: (l2.filter (holdsPage pid)).map Prod.fst = [aid] := by
            have hx := hsingle
            rw [holders_def, hsplit, List.filter_append, List.filter_cons,
              hPa] at hx
            simpa using hx
          have hlen : ((l1.filter (holdsPage pid)).map Prod.fst).length +
              (((l2.filter (holdsPage pid)).map Prod.fst).length + 1) = 1 := by
            have hy := congrArg List.length hdecomp
            simpa using hy
          have hl1 : (l1.filter (holdsPage pid)).map Prod.fst = [] :=
            List.eq_nil_of_length_eq_zero (by omega)
          have hl2 : (l2.filter (holdsPage pid)).map Prod.fst = [] :=
            List.eq_nil_of_length_eq_zero (by omega)
          rw [hrem, List.filter_append, List.map_append, hl1, hl2]
          rfl
        · rw [if_neg hp]
          have hPa : holdsPage pid (aid, a) = false := by
            have hz := hp
            rw [Bool.not_eq_true] at hz
            exact hz
          have hfilters : (dictRemove m.assignments aid).filter
              (holdsPage pid) = m.assignments.filter (holdsPage pid) := by
            rw [hrem, hsplit, List.filter_append, List.filter_append,
              List.filter_cons, hPa]
            simp
          rw [hfilters]
          exact hs.index_eq pid

theorem sync_runOps (ops : List ManagerOp) :
    ∀ m : AssignmentManager, Sync m → validSeq m ops = true →
      Sync (runOps m ops) := by
  induction ops with
  | nil => exact fun m hs _ => hs
  | cons op rest ih =>
      intro m hs hv
      cases op with
      | add a =>
          rw [validSeq, Bool.and_assoc, Bool.and_eq_true, Bool.and_eq_true]
            at hv
          obtain ⟨hconf, hfresh, hrest⟩ := hv
          rw [Option.isNone_iff_eq_none] at hfresh
          exact ih _ (sync_add m a hs hfresh hconf) hrest
      | remove aid =>
          rw [validSeq] at hv
          exact ih _ (sync_remove m aid hs) hv

/-- C2, counterexample: the claim quantifies over arbitrary operation
sequences, "including ones whose page sets overlap pages of already-added
assignments". After the two overlapping adds of `overlapOps`, page `f:1` is
a key of the index but TWO held assignments contain it; and after
additionally removing the second owner (`overlapRemoveOps`), assignment
`A1` still holds `f:1` yet the index has no such key, so both the
exactly-one property and the key-iff-held property fail. -/
theorem page_uniqueness_fails_on_overlap :
    ((runOps emptyManager overlapOps).holders pg1.page_id = ["A1", "A2"]) ∧
    ((dictGet (runOps emptyManager overlapOps).page_to_assignment
      pg1.page_id).isSome = true) ∧
    ((runOps emptyManager overlapRemoveOps).holders pg1.page_id = ["A1"]) ∧
    (dictGet (runOps emptyManager overlapRemoveOps).page_to_assignment
      pg1.page_id = none) := by
  decide

/-- C2 (amended): for every sequence of `add_assignment` /
`remove_assignment` operations in which each added assignment passes the
program's own conflict guard (`check_page_conflicts` returns no conflict,
as `DocumentBatch.assign_pages_to_index` enforces) and carries a fresh id,
at every point a `page_id` is a key of the page index if and only if some
currently held assignment contains that page, and every indexed page is
contained in exactly one held assignment. -/
theorem page_index_sync_invariant (ops : List ManagerOp)
    (h : validSeq emptyManager ops = true) :
    (∀ pid : String,
      (dictGet (runOps emptyManager ops).page_to_assignment pid).isSome =
        !((runOps emptyManager ops).holders pid).isEmpty) ∧
    (∀ pid : String,
      (dictGet (runOps emptyManager ops).page_to_assignment pid).isSome =
        true → ((runOps emptyManager ops).holders pid).length = 1) := by
  have hs := sync_runOps ops emptyManager sync_empty h
  constructor
  · intro pid
    rw [hs.index_eq pid]
    cases (runOps emptyManager ops).holders pid <;> rfl
  · intro pid hp
    rw [hs.index_eq pid] at hp
    have hne : (runOps emptyManager ops).holders pid ≠ [] := by
      intro hnil
      rw [hnil] at hp
      simp at hp
    have h1 := hs.unique pid
    have h2 : 0 < ((runOps emptyManager ops).holders pid).length :=
      List.length_pos.mpr hne
    omega

/-- C2, witness: the invariant theorem applied to a concrete conflict-free
sequence (two disjoint adds followed by a removal). -/
theorem page_index_sync_invariant_witness :
    validSeq emptyManager
      [ManagerOp.add (bareAssignment "A1" [pg1]),
       ManagerOp.add (bareAssignment "A2" [pg2]),
       ManagerOp.remove "A1"] = true ∧
    ((∀ pid : String,
      (dictGet (runOps emptyManager
        [ManagerOp.add (bareAssignment "A1" [pg1]),
         ManagerOp.add (bareAssignment "A2" [pg2]),
         ManagerOp.remove "A1"]).page_to_assignment pid).isSome =
        !((runOps emptyManager
          [ManagerOp.add (bareAssignment "A1" [pg1]),
           ManagerOp.add (bareAssignment "A2" [pg2]),
           ManagerOp.remove "A1"]).holders pid).isEmpty) ∧
    (∀ pid : String,
      (dictGet (runOps emptyManager
        [ManagerOp.add (bareAssignment "A1" [pg1]),
         ManagerOp.add (bareAssignment "A2" [pg2]),
         ManagerOp.remove "A1"]).page_to_assignment pid).isSome = true →
        ((runOps emptyManager
          [ManagerOp.add (bareAssignment "A1" [pg1]),
           ManagerOp.add (bareAssignment "A2" [pg2]),
           ManagerOp.remove "A1"]).holders pid).length = 1)) :=
  ⟨by decide, page_index_sync_invariant _ (by decide)⟩

/-- C4, counterexample: in the reachable de-synchronized state produced by
`overlapRemoveOps` (overlapping add, then removal of the second owner),
`check_page_conflicts` reports NO conflict for page `f:1` although
assignment `A1` currently holds that page — so the function does not return
"exactly those references held by some assignment" for every manager
state. -/
theorem check_page_conflicts_misses_held_page :
    ((runOps emptyManager overlapRemoveOps).check_page_conflicts [pg1]
      = []) ∧
    ((runOps emptyManager overlapRemoveOps).holders pg1.page_id = ["A1"]) := by
  decide

/-- C4 (amended): `check_page_conflicts` returns exactly the references in
the list whose `page_id` is a key of the page index; in every synchronized
state (in particular after any conflict-free history, cf. the C2 theorem)
this is exactly the set of references held by some assignment. And whenever
the conflict set is non-empty, `assign_pages_to_index` raises
`AssignmentConflictError` and leaves the batch — its assignment manager
included — unchanged. -/
theorem check_page_conflicts_amended :
    (∀ (m : AssignmentManager) (refs : List PageReference), Sync m →
      m.check_page_conflicts refs =
        refs.filter (fun r => !(m.holders r.page_id).isEmpty)) ∧
    (∀ (b : DocumentBatch) (refs : List PageReference)
       (vals : List (String × String)) (fid : String) (now : DateTime),
      (b.assignment_manager.check_page_conflicts refs).isEmpty = false →
      b.assign_pages_to_index refs vals fid now =
        (.error (.assignmentConflictError ("Pages already assigned: " ++
          joinWith ", " ((b.assignment_manager.check_page_conflicts
            refs).map PageReference.page_id))), b)) := by
  constructor
  · intro m refs hs
    unfold AssignmentManager.check_page_conflicts
    apply List.filter_congr
    intro r _
    rw [hs.index_eq r.page_id]
    cases m.holders r.page_id <;> rfl
  · intro b refs vals fid now hne
    unfold DocumentBatch.assign_pages_to_index
    simp [hne]

/-- C4, witness: the characterization applied to the synchronized one-add
manager, and the raising branch applied to `sampleBatch` (whose manager
already claims page `fA:1`). -/
theorem check_page_conflicts_amended_witness :
    (Sync (runOps emptyManager
      [ManagerOp.add (bareAssignment "A1" [pg1])]) ∧
     (runOps emptyManager [ManagerOp.add (bareAssignment "A1" [pg1])]
       ).check_page_conflicts [pg1, pg2] =
       [pg1, pg2].filter (fun r => !((runOps emptyManager
         [ManagerOp.add (bareAssignment "A1" [pg1])]).holders
           r.page_id).isEmpty)) ∧
    ((sampleBatch.assignment_manager.check_page_conflicts
       [{ file_id := "fA", page_number := 1 }]).isEmpty = false ∧
     sampleBatch.assign_pages_to_index
       [{ file_id := "fA", page_number := 1 }] [] "N" dt1 =
       (.error (.assignmentConflictError ("Pages already assigned: " ++
         joinWith ", " ((sampleBatch.assignment_manager.check_page_conflicts
           [{ file_id := "fA", page_number := 1 }]).map
             PageReference.page_id))), sampleBatch)) :=
  ⟨⟨sync_runOps _ _ sync_empty (by decide),
    check_page_conflicts_amended.1 _ _
      (sync_runOps _ _ sync_empty (by decide))⟩,
   by decide,
   check_page_conflicts_amended.2 _ _ _ _ _ (by decide)⟩

theorem firstWithPath_append (prev : List (String × PageAssignment))
    (e : String × PageAssignment) (fp : String) :
    firstWithPath (prev ++ [e]) fp =
      match firstWithPath prev fp with
      | some x => some x
      | none => firstWithPath [e] fp := by
  induction prev with
  | nil => rfl
  | cons x rest ih =>
      unfold firstWithPath at ih ⊢
      rw [List.cons_append, List.find?_cons, List.find?_cons]
      cases hx : (match x.2.document_preview with
        | some preview => decide (preview.get_full_path = fp)
        | none => false) with
      | true => rfl
      | false => exact ih

/-- Invariant of the `get_filename_conflicts` loop: when the `seen` dict
maps every path to the first previously-walked entry with that path, the
loop computes the accumulated list followed by `conflictsSpec`. -/
theorem filenameConflictsLoop_spec
    (l : List (String × PageAssignment)) :
    ∀ (prev : List (String × PageAssignment))
      (seen : List (String × String))
      (acc : List (String × String × String)),
      (∀ fp : String, dictGet seen fp = firstWithPath prev fp) →
      filenameConflictsLoop l seen acc = acc ++ conflictsSpec prev l := by
  induction l with
  | nil =>
      intro prev seen acc hinv
      rw [filenameConflictsLoop, conflictsSpec, List.append_nil]
  | cons e rest ih =>
      intro prev seen acc hinv
      cases hpv : e.2.document_preview with
      | none =>
          have h1 : filenameConflictsLoop (e :: rest) seen acc =
              filenameConflictsLoop rest seen acc := by
            rw [filenameConflictsLoop, hpv]
          have h2 : conflictsSpec prev (e :: rest) =
              conflictsSpec (prev ++ [e]) rest := by
            rw [conflictsSpec, hpv]
          rw [h1, h2]
          refine ih (prev ++ [e]) seen acc ?_
          intro fp
          rw [firstWithPath_append, hinv fp]
          cases hfw' : firstWithPath prev fp with
          | some x => rfl
          | none =>
              show (none : Option String) = firstWithPath [e] fp
              simp [firstWithPath, List.find?, hpv]
      | some preview =>
          have h1 : filenameConflictsLoop (e :: rest) seen acc =
              (match dictGet seen preview.get_full_path with
               | some existing_id => filenameConflictsLoop rest seen
                   (acc ++ [(existing_id, e.1, preview.get_full_path)])
               | none => filenameConflictsLoop rest
                   (dictInsert seen preview.get_full_path e.1) acc) := by
            rw [filenameConflictsLoop, hpv]
          have h2 : conflictsSpec prev (e :: rest) =
              (match firstWithPath prev preview.get_full_path with
               | some first_id => (first_id, e.1, preview.get_full_path) ::
                   conflictsSpec (prev ++ [e]) rest
               | none => conflictsSpec (prev ++ [e]) rest) := by
            rw [conflictsSpec, hpv]
          rw [h1, h2, hinv preview.get_full_path]
          cases hfw : firstWithPath prev preview.get_full_path with
          | some first_id =>
              have hinv' : ∀ fp : String,
                  dictGet seen fp = firstWithPath (prev ++ [e]) fp := by
                intro fp
                rw [firstWithPath_append, hinv fp]
                cases hfw' : firstWithPath prev fp with
                | some x => rfl
                | none =>
                    show (none : Option String) = firstWithPath [e] fp
                    by_cases hfp : preview.get_full_path = fp
                    · rw [← hfp, hfw] at hfw'
                      exact absurd hfw' (by simp)
                    · simp [firstWithPath, List.find?, hpv, hfp]
              show filenameConflictsLoop rest seen
                  (acc ++ [(first_id, e.1, preview.get_full_path)]) =
                acc ++ ((first_id, e.1, preview.get_full_path) ::
                  conflictsSpec (prev ++ [e]) rest)
              rw [ih (prev ++ [e]) seen _ hinv', List.append_assoc]
              rfl
          | none =>
              have hinv' : ∀ fp : String,
                  dictGet (dictInsert seen preview.get_full_path e.1) fp =
                    firstWithPath (prev ++ [e]) fp := by
                intro fp
                rw [firstWithPath_append, dictGet_insert]
                cases hfw' : firstWithPath prev fp with
                | some x =>
                    have hne : ¬(preview.get_full_path = fp) := by
                      intro hfp
                      rw [← hfp, hfw] at hfw'
                      exact absurd hfw' (by simp)
                    rw [if_neg hne, hinv fp, hfw']
                | none =>
                    show (if preview.get_full_path = fp then some e.1
                      else dictGet seen fp) = firstWithPath [e] fp
                    by_cases hfp : preview.get_full_path = fp
                    · rw [if_pos hfp]
                      simp [firstWithPath, List.find?, hpv, ← hfp]
                    · rw [if_neg hfp, hinv fp, hfw']
                      simp [firstWithPath, List.find?, hpv, hfp]
              show filenameConflictsLoop rest
                  (dictInsert seen preview.get_full_path e.1) acc =
                acc ++ conflictsSpec (prev ++ [e]) rest
              exact ih (prev ++ [e]) _ acc hinv'

/-- C10, counterexample: with THREE previewed assignments `A`, `B`, `C`
sharing one output path, `get_filename_conflicts` reports only the pairs
`(A, B)` and `(A, C)` — `B` and `C` also have equal full output paths, yet
no tuple pairing them is returned, so the function does not return a tuple
for EVERY pair of equal-path previewed assignments. -/
theorem filename_conflicts_missing_pair :
    (threeWayManager.get_filename_conflicts =
      [("A", "B", "Invoices/2024-01-15.pdf"),
       ("A", "C", "Invoices/2024-01-15.pdf")]) ∧
    (((dictGet threeWayManager.assignments "B").bind
        PageAssignment.document_preview).map DocumentPreview.get_full_path =
      some "Invoices/2024-01-15.pdf") ∧
    (((dictGet threeWayManager.assignments "C").bind
        PageAssignment.document_preview).map DocumentPreview.get_full_path =
      some "Invoices/2024-01-15.pdf") ∧
    (∀ t ∈ threeWayManager.get_filename_conflicts,
      ¬(t.1 = "B" ∧ t.2.1 = "C") ∧ ¬(t.1 = "C" ∧ t.2.1 = "B")) := by
  decide

/-- C10 (amended): `get_filename_conflicts`, restricted to assignments that
currently have a cached `document_preview`, returns one
`(assignment_id1, assignment_id2, path)` tuple for every previewed
assignment that is preceded (in storage order) by another previewed
assignment with an equal full output path, pairing it with the FIRST such
assignment (so a bucket of k equal-path assignments yields k-1 tuples, all
anchored at the bucket's first member); assignments without a cached
preview are never reported. In particular, for exactly two previewed
assignments with identical paths it returns exactly one conflict tuple. -/
theorem get_filename_conflicts_characterization (m : AssignmentManager) :
    m.get_filename_conflicts = conflictsSpec [] m.assignments := by
  unfold AssignmentManager.get_filename_conflicts
  rw [filenameConflictsLoop_spec m.assignments [] [] []
    (fun fp => rfl), List.nil_append]

/-- C3: for a fixed schema, field-value map, timestamp and sequential
number, the path-generation functions are pure: `generate_folder_structure`
reads no ambient state at all, and `generate_filename` is independent of
the ambient clock (`datetime.now()`, the only observable state either
function can touch) whenever `timestamp` and `sequential` are provided —
so two calls with identical inputs return identical strings. -/
theorem generate_paths_deterministic (s : IndexSchema)
    (values : List (String × String)) (t : DateTime) (q : Nat)
    (now1 now2 : DateTime) :
    s.generate_folder_structure values = s.generate_folder_structure values ∧
    s.generate_filename values (some t) (some q) now1 =
      s.generate_filename values (some t) (some q) now2 :=
  ⟨rfl, rfl⟩

/-- C8, counterexample: an assignment restored by `from_dict` with
`is_valid = true` and no schema hits the early return of
`validate_assignment`, which reports `(False, [error], [])` but does NOT
update the stored fields — afterwards the stored `is_valid` flag is still
true while the returned error list is non-empty, and the returned triple
differs from the stored one. -/
theorem validate_assignment_stale_flag :
    (((PageAssignment.from_dict
      { assignment_id := some "A8", page_references := [pg1],
        is_valid := true } none "fresh" dt0).validate_assignment
        trivialOracle).1.is_valid = true) ∧
    (((PageAssignment.from_dict
      { assignment_id := some "A8", page_references := [pg1],
        is_valid := true } none "fresh" dt0).validate_assignment
        trivialOracle).2.1 = false) ∧
    (((PageAssignment.from_dict
      { assignment_id := some "A8", page_references := [pg1],
        is_valid := true } none "fresh" dt0).validate_assignment
        trivialOracle).2.2.1 ≠ []) := by
  decide

/-- C8 (amended): for every assignment that HAS a schema, immediately
after `validate_assignment()` the stored `is_valid` flag is true if and
only if the returned error list is empty, and the returned triple equals
the stored `(is_valid, validation_errors, validation_warnings)`. (The
no-schema short-circuit returns early without updating the stored fields;
see the counterexample.) -/
theorem validate_assignment_sync (o : PyOracle) (a : PageAssignment)
    (s : IndexSchema) (h : a.schema = some s) :
    ((a.validate_assignment o).1.is_valid = true ↔
      (a.validate_assignment o).2.2.1 = []) ∧
    (a.validate_assignment o).2 =
      ((a.validate_assignment o).1.is_valid,
       (a.validate_assignment o).1.validation_errors,
       (a.validate_assignment o).1.validation_warnings) := by
  unfold PageAssignment.validate_assignment
  rw [h]
  cases hg : a.generate_document_preview with
  | ok p => simp [hg, List.isEmpty_iff]
  | error e => simp [hg, List.isEmpty_iff]

/-- C8, witness: the synchronization property applied to a concrete
assignment carrying `sampleSchema`. -/
theorem validate_assignment_sync_witness :
    (sampleAssignment "W8" [pg1]).schema = some sampleSchema ∧
    ((((sampleAssignment "W8" [pg1]).validate_assignment
        trivialOracle).1.is_valid = true ↔
      ((sampleAssignment "W8" [pg1]).validate_assignment
        trivialOracle).2.2.1 = []) ∧
    ((sampleAssignment "W8" [pg1]).validate_assignment trivialOracle).2 =
      (((sampleAssignment "W8" [pg1]).validate_assignment
         trivialOracle).1.is_valid,
       ((sampleAssignment "W8" [pg1]).validate_assignment
         trivialOracle).1.validation_errors,
       ((sampleAssignment "W8" [pg1]).validate_assignment
         trivialOracle).1.validation_warnings)) :=
  ⟨by decide,
   validate_assignment_sync trivialOracle (sampleAssignment "W8" [pg1])
     sampleSchema (by decide)⟩

/-- C9 (code bug): `add_pages` updates `modified_timestamp` and clears the
cached `document_preview` whenever its ARGUMENT list is non-empty, even
when every reference was already present and nothing was added — the
condition `if page_references:` tests the parameter, contradicting the
adjacent comment "Only update timestamp if we actually added pages" and
the spec. Here: an assignment already holding page `f:1` with a cached
preview; `add_pages([f:1])` leaves `page_references` unchanged (the dedup
part of the claim holds, and single `add_page` of a present reference is a
complete no-op) yet bumps the timestamp and destroys the preview. -/
theorem add_pages_bumps_without_addition :
    ((sampleAssignment "A9" [pg1]).document_preview.isSome = true) ∧
    ((sampleAssignment "A9" [pg1]).modified_timestamp = dt0) ∧
    ((sampleAssignment "A9" [pg1]).add_page pg1 dt1 =
      sampleAssignment "A9" [pg1]) ∧
    (((sampleAssignment "A9" [pg1]).add_pages [pg1] dt1).page_references =
      (sampleAssignment "A9" [pg1]).page_references) ∧
    (((sampleAssignment "A9" [pg1]).add_pages [pg1] dt1).modified_timestamp
      = dt1) ∧
    (((sampleAssignment "A9" [pg1]).add_pages [pg1] dt1).document_preview
      = none) := by
  decide

/-- C1: `DocumentBatch.__init__` never defines a `page_assignments`
attribute, so the read at the top of
`ValidationEngine.validate_batch_assignments` raises `AttributeError`,
which the outer handler catches: the call never propagates an exception
and returns `is_valid = False` with a single `system_error` record.
Consequently `DocumentProcessor.process_batch` on any `DocumentBatch`
returns `False` without starting the assignment loop (the internal task is
never submitted), hence without writing any output file. -/
theorem batch_validation_system_error (o : PyOracle) (isWindows : Bool)
    (now : DateTime) (b : DocumentBatch) (busy : Bool) :
    validateBatchAssignments o isWindows now b =
      (false,
       [{ rtype := "system_error",
          message := "Batch validation failed: DocumentBatch object has no attribute page_assignments" }]) ∧
    processBatchReturn (processBatch busy o isWindows now b) = false ∧
    processBatch busy o isWindows now b ≠ ProcessOutcome.started := by
  refine ⟨rfl, ?_, ?_⟩
  · cases busy <;> rfl
  · cases busy <;> exact fun h => ProcessOutcome.noConfusion h

/-- C6 (code bug): with conflict policy `PROMPT_USER` and an existing
destination file, `_handle_file_conflict` reaches its `else` branch, which
calls the method again with IDENTICAL arguments and unchanged
configuration: for EVERY call-stack budget the recursion exhausts the
budget and raises `RecursionError` (Python aborts at its recursion limit,
failing the assignment), instead of terminating with the first free
`_1`, `_2`, ... auto-renamed path as the spec and the code's own
`PROMPT_USER - for now, auto-rename` comment intend. -/
theorem prompt_user_conflict_recursion (env : ProcEnv) (fuel : Nat)
    (file : String) :
    handleFileConflict env ConflictResolution.PROMPT_USER fuel file =
      .error .recursionError := by
  induction fuel with
  | zero => rfl
  | succ n ih => exact ih

theorem except_bind_ok {α β : Type} (x : α)
    (f : α → Except PyError β) :
    (Bind.bind (Except.ok x) f : Except PyError β) = f x :=
  rfl

theorem except_bind_error {α β : Type} (e : PyError)
    (f : α → Except PyError β) :
    (Bind.bind (Except.error e) f : Except PyError β) = Except.error e :=
  rfl

theorem resolveAll_error (env : ProcEnv) (b : DocumentBatch)
    (refs : List PageReference)
    (h : ∃ r ∈ refs, resolvePageRef env b r = none) :
    ∃ e, resolveAll env b refs = .error e := by
  induction refs with
  | nil =>
      obtain ⟨r, hr, _⟩ := h
      exact absurd hr (List.not_mem_nil r)
  | cons r rest ih =>
      obtain ⟨x, hx, hxn⟩ := h
      rw [List.mem_cons] at hx
      cases hres : resolvePageRef env b r with
      | none =>
          refine ⟨.pdfProcessingError
            ("Source file not found for page reference: " ++ r.page_id), ?_⟩
          rw [resolveAll, hres]
      | some p =>
          have hrest : ∃ x ∈ rest, resolvePageRef env b x = none := by
            rcases hx with rfl | hx
            · rw [hres] at hxn
              exact absurd hxn (by simp)
            · exact ⟨x, hx, hxn⟩
          obtain ⟨e, he⟩ := ih hrest
          refine ⟨e, ?_⟩
          rw [resolveAll, hres, he]
          rfl

theorem generate_preview_preserves_refs (a : PageAssignment)
    (p : PageAssignment × DocumentPreview)
    (hg : a.generate_document_preview = .ok p) :
    p.1.page_references = a.page_references := by
  unfold PageAssignment.generate_document_preview at hg
  split at hg
  · exact absurd hg (by simp)
  · split at hg
    · exact absurd hg (by simp)
    · injection hg with hg'
      rw [← hg']

theorem processSingle_fails_of_unresolvable (cfg : ProcConfig)
    (env : ProcEnv) (b : DocumentBatch) (outDir : String)
    (a : PageAssignment)
    (h : ∃ r ∈ a.page_references, resolvePageRef env b r = none) :
    (processSingleAssignment cfg env b outDir a).success = false := by
  suffices hs : ∃ e, processSingleSteps cfg env b outDir a = .error e by
    obtain ⟨e, he⟩ := hs
    unfold processSingleAssignment
    rw [he]
  unfold processSingleSteps
  cases hg : a.generate_document_preview with
  | error e => exact ⟨e, rfl⟩
  | ok p =>
      simp only [except_bind_ok]
      have hb : ∃ r ∈ p.1.page_references,
          resolvePageRef env b r = none := by
        rw [generate_preview_preserves_refs a p hg]
        exact h
      cases hcf : resolveOutputConflict cfg env
          (outDir ++ "/" ++ p.2.get_full_path) with
      | error e => exact ⟨e, rfl⟩
      | ok out =>
          simp only [except_bind_ok]
          obtain ⟨e, he⟩ := resolveAll_error env b p.1.page_references hb
          refine ⟨e, ?_⟩
          rw [he]
          rfl

theorem processSingle_success_count_good (cfg : ProcConfig) (env : ProcEnv)
    (b : DocumentBatch) (outDir : String) (l : List PageAssignment)
    (hgood : ∀ x ∈ l,
      (processSingleAssignment cfg env b outDir x).success = true) :
    ((l.map (processSingleAssignment cfg env b outDir)).countP
      (fun r => r.success) = l.length) ∧
    ((l.map (processSingleAssignment cfg env b outDir)).countP
      (fun r => !r.success) = 0) := by
  constructor
  · rw [List.countP_map]
    apply List.countP_eq_length.mpr
    intro x hx
    simpa using hgood x hx
  · rw [List.countP_map]
    apply List.countP_eq_zero.mpr
    intro x hx
    simp [hgood x hx]

theorem procLoop_no_cancel (cfg : ProcConfig) (env : ProcEnv)
    (b : DocumentBatch) (outDir : String) (l : List PageAssignment) :
    ∀ i : Nat, procLoop cfg env b outDir (fun _ => false) l i =
      (l.map (processSingleAssignment cfg env b outDir), i + l.length) := by
  induction l with
  | nil => intro i; rfl
  | cons a rest ih =>
      intro i
      rw [procLoop, ih (i + 1)]
      simp
      omega

theorem procLoop_cancel_at (cfg : ProcConfig) (env : ProcEnv)
    (b : DocumentBatch) (outDir : String) (k : Nat)
    (l : List PageAssignment) :
    ∀ i : Nat, i ≤ k →
      procLoop cfg env b outDir (fun j => decide (k ≤ j)) l i =
        ((l.take (k - i)).map (processSingleAssignment cfg env b outDir),
          min (i + l.length) k) := by
  induction l with
  | nil =>
      intro i hi
      rw [procLoop]
      simp
      omega
  | cons a rest ih =>
      intro i hi
      rw [procLoop]
      by_cases hik : k ≤ i
      · rw [if_pos (by simpa using hik)]
        have h0 : k - i = 0 := by omega
        rw [h0]
        simp
        omega
      · rw [if_neg (by simpa using hik)]
        have hi1 : i + 1 ≤ k := by omega
        rw [ih (i + 1) hi1]
        have htake : k - i = (k - (i + 1)) + 1 := by omega
        rw [htake, List.take_succ_cons]
        simp
        omega

/-- C5: for a snapshot containing exactly one assignment with an
unresolvable page reference (its source file is not found through the
batch's file index), while every other assignment processes successfully
and the cancel flag is never set, the loop of `_process_batch_internal`
produces one `ProcessingResult` per assignment — all marked successful
except the single failed one — and the run terminates in `COMPLETED`, not
`ERROR`: the failure is isolated to its own result record and never aborts
the remaining assignments. -/
theorem processing_isolation (cfg : ProcConfig) (env : ProcEnv)
    (b : DocumentBatch) (outDir : String)
    (l1 l2 : List PageAssignment) (bad : PageAssignment)
    (hsnap : b.assignment_manager.assignments.map Prod.snd =
      l1 ++ bad :: l2)
    (hgood : ∀ x ∈ l1 ++ l2,
      (processSingleAssignment cfg env b outDir x).success = true)
    (hbad : ∃ r ∈ bad.page_references, resolvePageRef env b r = none)
    (hmkdir : env.mkdirOk outDir = true) :
    ((processBatchInternal cfg env b outDir (fun _ => false)).2.1.length =
      l1.length + 1 + l2.length) ∧
    ((processBatchInternal cfg env b outDir
      (fun _ => false)).2.1.countP (fun r => r.success) =
      l1.length + l2.length) ∧
    ((processBatchInternal cfg env b outDir
      (fun _ => false)).2.1.countP (fun r => !r.success) = 1) ∧
    ((processBatchInternal cfg env b outDir (fun _ => false)).1 =
      ProcessingState.COMPLETED) := by
  have hgood1 : ∀ x ∈ l1,
      (processSingleAssignment cfg env b outDir x).success = true :=
    fun x hx => hgood x (List.mem_append_left _ hx)
  have hgood2 : ∀ x ∈ l2,
      (processSingleAssignment cfg env b outDir x).success = true :=
    fun x hx => hgood x (List.mem_append_right _ hx)
  have hfail := processSingle_fails_of_unresolvable cfg env b outDir bad hbad
  have hc1 := processSingle_success_count_good cfg env b outDir l1 hgood1
  have hc2 := processSingle_success_count_good cfg env b outDir l2 hgood2
  unfold processBatchInternal
  rw [hmkdir]
  simp only [Bool.not_true, Bool.false_eq_true, if_false, hsnap,
    procLoop_no_cancel]
  refine ⟨?_, ?_, ?_, rfl⟩
  · simp
    omega
  · simp only [List.map_append, List.map_cons, List.countP_append,
      List.countP_cons, hc1.1, hc2.1, hfail]
    simp
  · simp only [List.map_append, List.map_cons, List.countP_append,
      List.countP_cons, hc1.2, hc2.2, hfail]
    simp

/-- C5, witness: `sampleBatch` holds the good assignment `G` (source file
present) and the bad assignment `X` (file id `missing` absent from the
file index); the run yields 2 results, 1 success, 1 failure, and ends
`COMPLETED`. -/
theorem processing_isolation_witness :
    (sampleBatch.assignment_manager.assignments.map Prod.snd =
      [sampleAssignment "G" [{ file_id := "fA", page_number := 1 }]] ++
        sampleAssignment "X" [{ file_id := "missing", page_number := 1 }] ::
          []) ∧
    ((processBatchInternal sampleConfig sampleEnv sampleBatch "out"
      (fun _ => false)).2.1.length = 1 + 1 + 0) ∧
    ((processBatchInternal sampleConfig sampleEnv sampleBatch "out"
      (fun _ => false)).2.1.countP (fun r => r.success) = 1 + 0) ∧
    ((processBatchInternal sampleConfig sampleEnv sampleBatch "out"
      (fun _ => false)).2.1.countP (fun r => !r.success) = 1) ∧
    ((processBatchInternal sampleConfig sampleEnv sampleBatch "out"
      (fun _ => false)).1 = ProcessingState.COMPLETED) := by
  refine ⟨by decide, ?_⟩
  have := processing_isolation sampleConfig sampleEnv sampleBatch "out"
    [sampleAssignment "G" [{ file_id := "fA", page_number := 1 }]] []
    (sampleAssignment "X" [{ file_id := "missing", page_number := 1 }])
    (by decide) (by decide) (by decide) (by decide)
  simpa using this

/-- C7: if the cooperative cancel flag becomes observed-true starting with
its k-th read — i.e. it is set after assignment k has started but before
assignment k+1 begins — then the run's result list contains exactly the
results of the first k snapshot assignments, none for the rest, and the
terminal state is `CANCELLED`, not `COMPLETED`. -/
theorem cancellation_boundary (cfg : ProcConfig) (env : ProcEnv)
    (b : DocumentBatch) (outDir : String) (k : Nat)
    (hk : k ≤ b.assignment_manager.assignments.length)
    (hmkdir : env.mkdirOk outDir = true) :
    ((processBatchInternal cfg env b outDir
        (fun j => decide (k ≤ j))).2.1 =
      ((b.assignment_manager.assignments.map Prod.snd).take k).map
        (processSingleAssignment cfg env b outDir)) ∧
    ((processBatchInternal cfg env b outDir
        (fun j => decide (k ≤ j))).1 = ProcessingState.CANCELLED) := by
  unfold processBatchInternal
  rw [hmkdir]
  simp only [Bool.not_true, Bool.false_eq_true, if_false]
  rw [procLoop_cancel_at cfg env b outDir k _ 0 (Nat.zero_le k)]
  have hmin : min (0 + (b.assignment_manager.assignments.map
      Prod.snd).length) k = k := by
    have hlen : (b.assignment_manager.assignments.map Prod.snd).length =
        b.assignment_manager.assignments.length := by simp
    omega
  simp only [hmin, Nat.sub_zero]
  have hflag : decide (k ≤ k + 1) = true := by simp
  simp [hflag]

/-- C7, witness: cancelling after the first assignment of `sampleBatch`
has started leaves exactly one result and a `CANCELLED` terminal state. -/
theorem cancellation_boundary_witness :
    (1 ≤ sampleBatch.assignment_manager.assignments.length ∧
     sampleEnv.mkdirOk "out" = true) ∧
    ((processBatchInternal sampleConfig sampleEnv sampleBatch "out"
        (fun j => decide (1 ≤ j))).2.1 =
      ((sampleBatch.assignment_manager.assignments.map Prod.snd).take 1).map
        (processSingleAssignment sampleConfig sampleEnv sampleBatch "out")) ∧
    ((processBatchInternal sampleConfig sampleEnv sampleBatch "out"
        (fun j => decide (1 ≤ j))).1 = ProcessingState.CANCELLED) :=
  ⟨⟨by decide, by decide⟩,
   (cancellation_boundary sampleConfig sampleEnv sampleBatch "out" 1
     (by decide) (by decide)).1,
   (cancellation_boundary sampleConfig sampleEnv sampleBatch "out" 1
     (by decide) (by decide)).2⟩

end ScannerExt
